import Mathlib

/-!
Shallow embedding of the cv-analyzer-api backend (Python) in Lean 4, together
with proofs settling the frozen specification claims.

Conventions used throughout:
- Python `str` values are modelled as `List Char` (Unicode scalar values); where
  a claim depends on Python strings that may carry lone surrogates (the
  `errors="ignore"` encoding path), they are modelled as `List Nat` code points.
- Machine integers are `Int`/`Nat` (Python integers are unbounded).
- Wall-clock times are `ℚ` (Python floats enter only through `time.time()` and
  window arithmetic; the algorithms use only ordering, floor and ceil).
- Fallible Python code (raising `ValueError` / domain errors) returns `Except`.
-/

namespace CvAnalyzer

/-- Characters matched by the regex class `[ \t]` in `normalize_text`. -/
def isSpaceTab (c : Char) : Bool :=
  c == ' ' || c == '\t'

/-- One-pass form of `text.replace("\r\n", "\n").replace("\r", "\n")` from
`app/utils/text_normalizer.py`: every `"\r\n"` pair becomes one `'\n'` and every
remaining `'\r'` becomes `'\n'`. -/
def replaceCR : List Char → List Char
  | [] => []
  | [c] => [if c = '\r' then '\n' else c]
  | c1 :: c2 :: rest =>
      if c1 = '\r' then
        if c2 = '\n' then '\n' :: replaceCR rest
        else '\n' :: replaceCR (c2 :: rest)
      else c1 :: replaceCR (c2 :: rest)

/-- `re.sub(r"[ \t]+", " ", text)`: each maximal run of spaces/tabs becomes a
single space. -/
def collapseSpaces : List Char → List Char
  | [] => []
  | [c] => if isSpaceTab c then [' '] else [c]
  | c1 :: c2 :: rest =>
      if isSpaceTab c1 && isSpaceTab c2 then collapseSpaces (c2 :: rest)
      else (if isSpaceTab c1 then ' ' else c1) :: collapseSpaces (c2 :: rest)

/-- `re.sub(r"\n{3,}", "\n\n", text)`: each maximal run of three or more
newlines becomes exactly two. -/
def collapseNewlines : List Char → List Char
  | a :: b :: c :: rest =>
      if a == '\n' && b == '\n' && c == '\n' then collapseNewlines (b :: c :: rest)
      else a :: collapseNewlines (b :: c :: rest)
  | l => l

/-- The character set stripped by Python's `str.strip()` (Unicode whitespace,
as recognised by `str.isspace`). -/
def isPyWs (c : Char) : Bool :=
  c == ' ' || c == '\t' || c == '\n' || c == '\r' || c == '\x0b' || c == '\x0c' ||
  c == '\x1c' || c == '\x1d' || c == '\x1e' || c == '\x1f' || c == '\x85' || c == '\xa0' ||
  c == '\u1680' || ('\u2000' ≤ c && c ≤ '\u200a') || c == '\u2028' || c == '\u2029' ||
  c == '\u202f' || c == '\u205f' || c == '\u3000'

/-- Drop the longest suffix all of whose elements satisfy `p`. -/
def dropTrailing (p : α → Bool) : List α → List α
  | [] => []
  | c :: rest =>
      if (dropTrailing p rest).isEmpty && p c then [] else c :: dropTrailing p rest

/-- Python `s.strip()` on a list, relative to the element predicate `p`:
drop the maximal prefix and the maximal suffix of elements satisfying `p`. -/
def stripBy (p : α → Bool) (l : List α) : List α :=
  dropTrailing p (l.dropWhile p)

/-- Embedding of `app/utils/text_normalizer.normalize_text`: normalise line
breaks, collapse space/tab runs, collapse 3+ newline runs to two, strip. -/
def normalize_text (text : List Char) : List Char :=
  stripBy isPyWs (collapseNewlines (collapseSpaces (replaceCR text)))

/-- No two adjacent characters are both space/tab; this is what a text looks
like after `re.sub(r"[ \t]+", " ", ·)` has collapsed every run. -/
def noAdjST : List Char → Bool
  | a :: b :: rest => !(isSpaceTab a && isSpaceTab b) && noAdjST (b :: rest)
  | _ => true

/-- No three consecutive newline characters anywhere in the text. -/
def no3NL : List Char → Bool
  | a :: b :: c :: rest => !(a == '\n' && b == '\n' && c == '\n') && no3NL (b :: c :: rest)
  | _ => true

/-- Modelled from the spec: the `max_pdf_pages` application setting (observed
default 50). It is read by `app/utils/pdf_extractor.py` as
`settings.app.max_pdf_pages`, but the field's declaration is missing from
`AppSettings` in `app/core/config.py` as present in the source tree. -/
def max_pdf_pages : Nat := 50

/-- Modelled from the spec: the `max_docx_paragraphs` application setting
(observed default 500), read by `app/utils/docx_extractor.py` but likewise
missing from `AppSettings` in the source tree. -/
def max_docx_paragraphs : Nat := 500

/-- Decimal rendering of `n`, as a Python f-string interpolates an `int`. -/
def natChars (n : Nat) : List Char := (Nat.repr n).toList

/-- The `ValueError` message of `extract_text_from_pdf_bytes` when the page
ceiling is exceeded:
`f"PDF has too many pages: {page_count} (max allowed: {max_pages})"`. -/
def pdfTooManyPagesMsg (pageCount maxPages : Nat) : List Char :=
  "PDF has too many pages: ".toList ++ natChars pageCount ++
    " (max allowed: ".toList ++ natChars maxPages ++ ")".toList

/-- Embedding of `app/utils/pdf_extractor.extract_text_from_pdf_bytes`. The
parsed document is given as `pypdf`'s reader presents it: the list of pages,
each carrying the optional text `page.extract_text()` yields (the code maps a
missing text to `""` via `or ""`). The configured maximum is a parameter. -/
def extract_text_from_pdf_bytes (pages : List (Option (List Char))) (maxPages : Nat) :
    Except (List Char) (List Char × Nat) :=
  let page_count := pages.length
  if page_count > maxPages then
    .error (pdfTooManyPagesMsg page_count maxPages)
  else
    let texts := pages.map (fun p => p.getD [])
    .ok (stripBy isPyWs (List.intercalate ['\n'] texts), page_count)

/-- The `ValueError` message of `extract_text_from_docx_bytes` when the
paragraph ceiling is exceeded:
`f"DOCX has too many paragraphs: {para_count} (max allowed: {max_paras})"`. -/
def docxTooManyParagraphsMsg (paraCount maxParas : Nat) : List Char :=
  "DOCX has too many paragraphs: ".toList ++ natChars paraCount ++
    " (max allowed: ".toList ++ natChars maxParas ++ ")".toList

/-- Embedding of `app/utils/docx_extractor.extract_text_from_docx_bytes`. The
parsed document is the list of its paragraphs' texts (`doc.paragraphs`, each
paragraph contributing `p.text`); `if p.text` keeps the non-empty ones. -/
def extract_text_from_docx_bytes (docParagraphs : List (List Char)) (maxParas : Nat) :
    Except (List Char) (List Char × Nat) :=
  let para_count := docParagraphs.length
  if para_count > maxParas then
    .error (docxTooManyParagraphsMsg para_count maxParas)
  else
    let paragraphs := docParagraphs.filter (fun p => !p.isEmpty)
    .ok (stripBy isPyWs (List.intercalate ['\n'] paragraphs), paragraphs.length)

/-- The module-local MIME table `SUPPORTED_MIME_TYPES` of
`app/services/cv_parser_service.py`. Note: it has no entry for the
macro-enabled Word MIME type. -/
def SUPPORTED_MIME_TYPES : List (List Char × List Char) :=
  [("application/pdf".toList, "pdf".toList),
   ("application/vnd.openxmlformats-officedocument.wordprocessingml.document".toList,
    "docx".toList)]

/-- Code-point lexicographic string comparison (Python's `str` ordering). -/
def strLeb : List Char → List Char → Bool
  | [], _ => true
  | _ :: _, [] => false
  | a :: s, b :: t => if a < b then true else if a = b then strLeb s t else false

/-- Insertion into a lexicographically sorted list of strings (used to model
Python's `sorted`). -/
def insertSortedStr (x : List Char) : List (List Char) → List (List Char)
  | [] => [x]
  | y :: t => if strLeb x y then x :: y :: t else y :: insertSortedStr x t

/-- Python's `sorted` on a list of strings. -/
def sortedStrings : List (List Char) → List (List Char)
  | [] => []
  | x :: t => insertSortedStr x (sortedStrings t)

/-- The message of `cv_parser_service._validate_file_type`:
`f"Unsupported file type. Only {supported_formats} are allowed."` where
`supported_formats = ", ".join(sorted(SUPPORTED_MIME_TYPES.values())).upper()`. -/
def unsupportedFileTypeMsg : List Char :=
  "Unsupported file type. Only ".toList ++
    (List.intercalate ", ".toList
        (sortedStrings (SUPPORTED_MIME_TYPES.map Prod.snd))).map Char.toUpper ++
    " are allowed.".toList

/-- Embedding of `cv_parser_service._validate_file_type`: membership test of the
declared content type (possibly absent) in the module-local table. -/
def _validate_file_type (content_type : Option (List Char)) :
    Except (List Char) (List Char) :=
  match content_type with
  | some ct =>
      match SUPPORTED_MIME_TYPES.lookup ct with
      | some t => .ok t
      | none => .error unsupportedFileTypeMsg
  | none => .error unsupportedFileTypeMsg

/-- The MIME table `mime_map` of `app/utils/file_validators.get_file_type_from_mime`,
which does carry the macro-enabled alternative DOCX MIME type. -/
def mime_map : List (List Char × List Char) :=
  [("application/pdf".toList, "pdf".toList),
   ("application/vnd.openxmlformats-officedocument.wordprocessingml.document".toList,
    "docx".toList),
   ("application/vnd.ms-word.document.macroEnabled.12".toList, "docx".toList)]

/-- Embedding of `app/utils/file_validators.get_file_type_from_mime`. -/
def get_file_type_from_mime (mime_type : List Char) : Option (List Char) :=
  mime_map.lookup mime_type

/-- Embedding of `analysis_service._truncate`: clip `text` to `max_chars`
characters, reporting whether clipping happened. -/
def _truncate (text : List Char) (max_chars : Nat) : List Char × Bool :=
  if text.length ≤ max_chars then (text, false)
  else (text.take max_chars, true)

/-- The shared truncation warning appended by `_prepare_inputs`. -/
def truncationWarning : List Char := "Input was truncated to fit model limits.".toList

/-- Embedding of `AnalysisService._prepare_inputs`. The Python method mutates
the `warnings` list in place; here the updated list is returned alongside the
two truncated texts. The two configured maxima are parameters
(`settings.app.max_cv_chars`, default 50000, and
`settings.app.max_job_desc_chars`, default 10000). -/
def _prepare_inputs (cv_text job_text : List Char) (warnings : List (List Char))
    (max_cv_chars max_job_desc_chars : Nat) :
    List Char × List Char × List (List Char) :=
  let cvr := _truncate cv_text max_cv_chars
  let jobr := _truncate job_text max_job_desc_chars
  let warnings2 :=
    if cvr.2 || jobr.2 then warnings ++ [truncationWarning] else warnings
  (cvr.1, jobr.1, warnings2)

/-- The per-key window state `_WindowState` of
`app/adapters/rate_limit/in_memory.py`. -/
structure WindowState where
  window_start : Int
  count : Int
  deriving DecidableEq

/-- The frozen result record `RateLimitResult` of
`app/adapters/rate_limit/base.py`. -/
structure RateLimitResult where
  allowed : Bool
  limit : Int
  remaining : Int
  reset_at : Int
  retry_after_seconds : Option Int
  deriving DecidableEq

/-- `InMemoryFixedWindowRateLimiter._get_window_bounds`: the fixed-window
boundaries for a timestamp (`int(now // window_seconds) * window_seconds` and
its end). -/
def _get_window_bounds (window_seconds : Int) (now : ℚ) : Int × Int :=
  let window_start := ⌊now / (window_seconds : ℚ)⌋ * window_seconds
  (window_start, window_start + window_seconds)

/-- `InMemoryFixedWindowRateLimiter._get_or_reset_state`: the stored state if
present and belonging to the current window, otherwise a fresh zero-count
state for this window (which the Python code also writes back to the dict;
`consume` below performs that write). -/
def _get_or_reset_state (states : List (List Char × WindowState)) (key : List Char)
    (window_start : Int) : WindowState :=
  match states.lookup key with
  | some st =>
      if st.window_start = window_start then st
      else { window_start := window_start, count := 0 }
  | none => { window_start := window_start, count := 0 }

/-- The count against which the claim's decision rule is phrased: the stored
count when the key's stored state belongs to the current window, otherwise
zero (no state, or the window rolled over). -/
def windowBase (states : List (List Char × WindowState)) (key : List Char)
    (ws : Int) : Int :=
  match states.lookup key with
  | some st => if st.window_start = ws then st.count else 0
  | none => 0

/-- Python dict assignment `d[key] = v` on an association list. -/
def dictInsert (states : List (List Char × WindowState)) (key : List Char)
    (v : WindowState) : List (List Char × WindowState) :=
  match states with
  | [] => [(key, v)]
  | (k, w) :: t => if key == k then (key, v) :: t else (k, w) :: dictInsert t key v

/-- `InMemoryFixedWindowRateLimiter._build_allowed_result`. -/
def _build_allowed_result (limit remaining reset_at : Int) : RateLimitResult :=
  { allowed := true, limit := limit, remaining := remaining, reset_at := reset_at,
    retry_after_seconds := none }

/-- `InMemoryFixedWindowRateLimiter._build_blocked_result`:
`retry_after = max(0, int(math.ceil(reset_at - now)))`. -/
def _build_blocked_result (limit : Int) (now : ℚ) (remaining reset_at : Int) :
    RateLimitResult :=
  { allowed := false, limit := limit, remaining := remaining, reset_at := reset_at,
    retry_after_seconds := some (max 0 ⌈(reset_at : ℚ) - now⌉) }

/-- Embedding of `InMemoryFixedWindowRateLimiter.consume`. The limiter's fields
`_limit` and `_window_seconds` (constructor-validated to be at least 1) and the
state dict are parameters; the clock value `now` is what `self._clock()`
returned. Returns the result together with the updated state dict. -/
def consume (limit window_seconds : Int) (states : List (List Char × WindowState))
    (key : List Char) (cost : Int) (now : ℚ) :
    Except (List Char) (RateLimitResult × List (List Char × WindowState)) :=
  if cost < 1 then .error "cost must be >= 1".toList
  else if key = [] then .error "key must be a non-empty string".toList
  else
    let wb := _get_window_bounds window_seconds now
    let window_start := wb.1
    let reset_at := wb.2
    let state := _get_or_reset_state states key window_start
    if state.count + cost ≤ limit then
      let newState : WindowState :=
        { window_start := state.window_start, count := state.count + cost }
      .ok (_build_allowed_result limit (max 0 (limit - newState.count)) reset_at,
        dictInsert states key newState)
    else
      .ok (_build_blocked_result limit now (max 0 (limit - state.count)) reset_at,
        dictInsert states key state)

/-- A Python `str` in full generality: a finite sequence of Unicode code
points, which may include lone surrogates (U+D800..U+DFFF) -- exactly the
values `errors="ignore"` exists to drop at encoding time. -/
abbrev PyStr := List Nat

/-- A code point in the surrogate range, not encodable by UTF-8. -/
def isSurrogate (c : Nat) : Bool := 0xD800 ≤ c && c ≤ 0xDFFF

/-- A Unicode scalar value: a code point below 0x110000 that is not a lone
surrogate. Python `str` built from encodable text contains only these. -/
def isScalar (c : Nat) : Bool := c < 0x110000 && !isSurrogate c

/-- Every code point of the string is a Unicode scalar value. -/
def ScalarStr (s : PyStr) : Prop := ∀ c ∈ s, isScalar c = true

instance (s : PyStr) : Decidable (ScalarStr s) :=
  inferInstanceAs (Decidable (∀ c ∈ s, isScalar c = true))

/-- UTF-8 encoding of a single code point; the empty byte list for a lone
surrogate, matching `errors="ignore"` which silently drops it. -/
def utf8Char (c : Nat) : List Nat :=
  if c < 0x80 then [c]
  else if c < 0x800 then [0xC0 + c / 64, 0x80 + c % 64]
  else if isSurrogate c then []
  else if c < 0x10000 then [0xE0 + c / 4096, 0x80 + c / 64 % 64, 0x80 + c % 64]
  else [0xF0 + c / 0x40000, 0x80 + c / 4096 % 64, 0x80 + c / 64 % 64, 0x80 + c % 64]

/-- `s.encode("utf-8", errors="ignore")`: byte string of the encodable code
points, in order. -/
def utf8Ignore : PyStr → List Nat
  | [] => []
  | c :: t => utf8Char c ++ utf8Ignore t

/-- Code points of an ASCII Lean string literal. -/
def strCodes (s : String) : PyStr := s.toList.map Char.toNat

/-- The prompt version constant `PROMPT_VERSION = "v1"` of
`analysis_service.py`, as code points. -/
def PROMPT_VERSION : PyStr := strCodes "v1"

/-- The byte string hashed by `analysis_service._hash_inputs`:
`f"{version}::{cv_text}::{job_text}".encode("utf-8", errors="ignore")`. -/
def hashInputsBytes (version cv_text job_text : PyStr) : List Nat :=
  utf8Ignore (version ++ strCodes "::" ++ cv_text ++ strCodes "::" ++ job_text)

/-- Truncate to a 32-bit word (arithmetic is modulo `2 ** 32`). -/
def w32 (n : Nat) : Nat := n % 4294967296

/-- Rotate a 32-bit word right by `n` bits. -/
def rotr (n x : Nat) : Nat := (x >>> n) ||| w32 (x <<< (32 - n))

/-- SHA-256 choice function. -/
def shaCh (x y z : Nat) : Nat := (x &&& y) ^^^ ((x ^^^ 0xFFFFFFFF) &&& z)

/-- SHA-256 majority function. -/
def shaMaj (x y z : Nat) : Nat := (x &&& y) ^^^ (x &&& z) ^^^ (y &&& z)

/-- SHA-256 big sigma 0. -/
def bigSigma0 (x : Nat) : Nat := rotr 2 x ^^^ rotr 13 x ^^^ rotr 22 x

/-- SHA-256 big sigma 1. -/
def bigSigma1 (x : Nat) : Nat := rotr 6 x ^^^ rotr 11 x ^^^ rotr 25 x

/-- SHA-256 small sigma 0. -/
def smallSigma0 (x : Nat) : Nat := rotr 7 x ^^^ rotr 18 x ^^^ (x >>> 3)

/-- SHA-256 small sigma 1. -/
def smallSigma1 (x : Nat) : Nat := rotr 17 x ^^^ rotr 19 x ^^^ (x >>> 10)

/-- The 64 SHA-256 round constants. -/
def K256 : List Nat :=
  [1116352408, 1899447441, 3049323471, 3921009573,
   961987163, 1508970993, 2453635748, 2870763221,
   3624381080, 310598401, 607225278, 1426881987,
   1925078388, 2162078206, 2614888103, 3248222580,
   3835390401, 4022224774, 264347078, 604807628,
   770255983, 1249150122, 1555081692, 1996064986,
   2554220882, 2821834349, 2952996808, 3210313671,
   3336571891, 3584528711, 113926993, 338241895,
   666307205, 773529912, 1294757372, 1396182291,
   1695183700, 1986661051, 2177026350, 2456956037,
   2730485921, 2820302411, 3259730800, 3345764771,
   3516065817, 3600352804, 4094571909, 275423344,
   430227734, 506948616, 659060556, 883997877,
   958139571, 1322822218, 1537002063, 1747873779,
   1955562222, 2024104815, 2227730452, 2361852424,
   2428436474, 2756734187, 3204031479, 3329325298]

/-- The SHA-256 initial hash value. -/
def H256 : List Nat :=
  [1779033703, 3144134277, 1013904242, 2773480762,
   1359893119, 2600822924, 528734635, 1541459225]

/-- Big-endian bytes of `n`, `k` bytes wide. -/
def toBytesBE : Nat → Nat → List Nat
  | 0, _ => []
  | k + 1, n => toBytesBE k (n / 256) ++ [n % 256]

/-- Group bytes into big-endian 32-bit words. -/
def toWordsBE : List Nat → List Nat
  | a :: b :: c :: d :: rest => (((a * 256 + b) * 256 + c) * 256 + d) :: toWordsBE rest
  | _ => []

/-- SHA-256 padding: append `0x80`, zeros to 56 mod 64, and the 64-bit
big-endian bit length. -/
def sha256pad (msg : List Nat) : List Nat :=
  let len := msg.length
  msg ++ [0x80] ++ List.replicate ((119 - len % 64) % 64) 0 ++ toBytesBE 8 (8 * len)

/-- Split a byte string into 64-byte blocks (`k` counts the blocks). -/
def toBlocksAux : Nat → List Nat → List (List Nat)
  | 0, _ => []
  | k + 1, l => l.take 64 :: toBlocksAux k (l.drop 64)

/-- Split a byte string into its 64-byte blocks. -/
def toBlocks (l : List Nat) : List (List Nat) := toBlocksAux ((l.length + 63) / 64) l

/-- One step of the SHA-256 message-schedule extension: append the next word. -/
def scheduleStep (ws : List Nat) : List Nat :=
  ws ++ [w32 (smallSigma1 (ws.getD (ws.length - 2) 0) + ws.getD (ws.length - 7) 0 +
    smallSigma0 (ws.getD (ws.length - 15) 0) + ws.getD (ws.length - 16) 0)]

/-- Extend the message schedule by `k` words. -/
def buildSchedule : List Nat → Nat → List Nat
  | ws, 0 => ws
  | ws, k + 1 => buildSchedule (scheduleStep ws) k

/-- One SHA-256 compression round on the working variables `[a,...,h]`. -/
def compressStep (state : List Nat) (kw : Nat × Nat) : List Nat :=
  match state with
  | [a, b, c, d, e, f, g, h] =>
      let t1 := w32 (h + bigSigma1 e + shaCh e f g + kw.1 + kw.2)
      let t2 := w32 (bigSigma0 a + shaMaj a b c)
      [w32 (t1 + t2), a, b, c, w32 (d + t1), e, f, g]
  | s => s

/-- Process one 64-byte block into the running hash. -/
def compressBlock (h : List Nat) (block : List Nat) : List Nat :=
  let wsch := buildSchedule (toWordsBE block) 48
  let final := (K256.zip wsch).foldl compressStep h
  (h.zip final).map (fun p => w32 (p.1 + p.2))

/-- SHA-256 of a byte string, as 32 digest bytes. -/
def sha256 (msg : List Nat) : List Nat :=
  ((toBlocks (sha256pad msg)).foldl compressBlock H256).map (toBytesBE 4) |>.flatten

/-- One lowercase hex digit. -/
def hexDigit (n : Nat) : Char := if n < 10 then Char.ofNat (48 + n) else Char.ofNat (87 + n)

/-- Lowercase hex rendering of a byte string (`hexdigest()`). -/
def hexdigest (bytes : List Nat) : List Char :=
  (bytes.map (fun b => [hexDigit (b / 16), hexDigit (b % 16)])).flatten

/-- Embedding of `analysis_service._hash_inputs`: SHA-256 hex digest of
`f"{PROMPT_VERSION}::{cv_text}::{job_text}"` encoded UTF-8 with
`errors="ignore"`. -/
def _hash_inputs (cv_text job_text : PyStr) : List Char :=
  hexdigest (sha256 (hashInputsBytes PROMPT_VERSION cv_text job_text))

/-- `s.encode()` (strict UTF-8) for a string of Unicode scalar values; on such
strings it agrees with the ignore-mode encoder. -/
def encodeStr (s : List Char) : List Nat := utf8Ignore (s.map Char.toNat)

/-- Embedding of `app/utils/simple_cache.build_cache_key`: sequential
`hasher.update` calls concatenate `cv_bytes`, the encoded job description and,
when the salt is truthy (present and non-empty), the encoded salt. -/
def build_cache_key (cv_bytes : List Nat) (job_description : List Char)
    (salt : Option (List Char)) : List Char :=
  hexdigest (sha256 (cv_bytes ++ encodeStr job_description ++
    (match salt with
     | some s => if s.isEmpty then [] else encodeStr s
     | none => [])))

/-- The `confidence` literal type of `CVAnalysisResponse`
(`Literal["low", "medium", "high"]`). -/
inductive Confidence
  | low
  | medium
  | high
  deriving DecidableEq

/-- `schemas/analysis.EvidenceItem`. -/
structure EvidenceItem where
  claim : List Char
  cv_quote : List Char
  deriving DecidableEq

/-- `schemas/analysis.CVAnalysisResponse` (pydantic model). The `fit_score`
bounds (`ge=0`, `le=100`) are enforced at validation time, below. -/
structure CVAnalysisResponse where
  summary : List Char
  fit_score : Int
  fit_score_rationale : List Char
  strengths : List (List Char)
  gaps : List (List Char)
  missing_keywords : List (List Char)
  rewrite_suggestions : List (List Char)
  ats_notes : List (List Char)
  red_flags : List (List Char)
  next_steps : List (List Char)
  evidence : List EvidenceItem
  confidence : Confidence
  warnings : List (List Char)
  cached : Bool
  deriving DecidableEq

/-- The plain-data (`model_dump()`) form of a response: the same fields as a
bare record, with no validation constraints attached. -/
structure DumpedAnalysis where
  summary : List Char
  fit_score : Int
  fit_score_rationale : List Char
  strengths : List (List Char)
  gaps : List (List Char)
  missing_keywords : List (List Char)
  rewrite_suggestions : List (List Char)
  ats_notes : List (List Char)
  red_flags : List (List Char)
  next_steps : List (List Char)
  evidence : List EvidenceItem
  confidence : Confidence
  warnings : List (List Char)
  cached : Bool
  deriving DecidableEq

/-- `CVAnalysisResponse.model_dump()`. -/
def model_dump (r : CVAnalysisResponse) : DumpedAnalysis :=
  { summary := r.summary, fit_score := r.fit_score,
    fit_score_rationale := r.fit_score_rationale, strengths := r.strengths,
    gaps := r.gaps, missing_keywords := r.missing_keywords,
    rewrite_suggestions := r.rewrite_suggestions, ats_notes := r.ats_notes,
    red_flags := r.red_flags, next_steps := r.next_steps, evidence := r.evidence,
    confidence := r.confidence, warnings := r.warnings, cached := r.cached }

/-- `CVAnalysisResponse.model_validate` on a plain-data dict that carries every
field: re-checks the `fit_score` bounds (`ge=0`, `le=100`), the one constraint
not already enforced by the field types of the plain form. -/
def model_validate (d : DumpedAnalysis) : Option CVAnalysisResponse :=
  if 0 ≤ d.fit_score ∧ d.fit_score ≤ 100 then
    some ⟨d.summary, d.fit_score, d.fit_score_rationale, d.strengths, d.gaps,
      d.missing_keywords, d.rewrite_suggestions, d.ats_notes, d.red_flags,
      d.next_steps, d.evidence, d.confidence, d.warnings, d.cached⟩
  else none

/-- The dict override `{**cached_result, "cached": flag}`. -/
def setCached (d : DumpedAnalysis) (b : Bool) : DumpedAnalysis := { d with cached := b }

/-- The cache's value type `AnalysisValue = CVAnalysisResponse | dict`. -/
inductive AnalysisValue
  | dict (d : DumpedAnalysis)
  | model (r : CVAnalysisResponse)
  deriving DecidableEq

/-- `simple_cache.CacheItem`: a value plus its absolute expiry time. -/
structure CacheItem where
  value : AnalysisValue
  expires_at : ℚ
  deriving DecidableEq

/-- `simple_cache.SimpleTTLCache` state. The ordered dict `_store` is an
association list in insertion/recency order, least recently used first. -/
structure SimpleTTLCache where
  ttl_seconds : ℚ
  max_entries : Option Nat
  store : List (List Char × CacheItem)
  hits : Nat
  misses : Nat
  evictions : Nat
  deriving DecidableEq

/-- A `SimpleTTLCache` as `__init__` builds it (defaults: `ttl_seconds=3600`,
`max_entries=1024`). -/
def emptyCache (ttl_seconds : ℚ) (max_entries : Option Nat) : SimpleTTLCache :=
  { ttl_seconds := ttl_seconds, max_entries := max_entries, store := [],
    hits := 0, misses := 0, evictions := 0 }

/-- Remove a key from the ordered store (`dict.pop`). -/
def removeKey (store : List (List Char × CacheItem)) (key : List Char) :
    List (List Char × CacheItem) :=
  store.filter (fun kv => !(kv.1 == key))

/-- `SimpleTTLCache.get`: miss on absence; evict-and-miss when
`now > expires_at` (`_is_expired`); on a hit, bump the hit counter and mark the
entry most recently used (`move_to_end`). The clock value `now` is what
`time.time()` returned. -/
def cacheGet (c : SimpleTTLCache) (key : List Char) (now : ℚ) :
    Option AnalysisValue × SimpleTTLCache :=
  match c.store.lookup key with
  | none => (none, { c with misses := c.misses + 1 })
  | some item =>
      if now > item.expires_at then
        (none,
          { c with
            store := removeKey c.store key,
            evictions := c.evictions + 1,
            misses := c.misses + 1 })
      else
        (some item.value,
          { c with
            hits := c.hits + 1,
            store := removeKey c.store key ++ [(key, item)] })

/-- `_evict_expired_locked`: drop every entry with `expires_at <= now`,
counting evictions. -/
def evictExpired (store : List (List Char × CacheItem)) (now : ℚ) :
    List (List Char × CacheItem) × Nat :=
  ((store.filter (fun kv => !(decide (kv.2.expires_at ≤ now)))),
   (store.filter (fun kv => decide (kv.2.expires_at ≤ now))).length)

/-- `_evict_if_over_capacity_locked`: pop least-recently-used entries from the
front until the size bound holds. -/
def evictOverCapacity (store : List (List Char × CacheItem)) (max_entries : Option Nat) :
    List (List Char × CacheItem) × Nat :=
  match max_entries with
  | none => (store, 0)
  | some m =>
      if store.length > m then (store.drop (store.length - m), store.length - m)
      else (store, 0)

/-- `SimpleTTLCache.set`: evict expired entries, write the item with expiry
`now + ttl`, mark it most recently used, then evict over capacity. -/
def cacheSet (c : SimpleTTLCache) (key : List Char) (v : AnalysisValue) (now : ℚ) :
    SimpleTTLCache :=
  let afterExpiry := evictExpired c.store now
  let item : CacheItem := { value := v, expires_at := now + c.ttl_seconds }
  let newStore := removeKey afterExpiry.1 key ++ [(key, item)]
  let afterCap := evictOverCapacity newStore c.max_entries
  { c with
    store := afterCap.1,
    evictions := c.evictions + afterExpiry.2 + afterCap.2 }

/-- Application/domain errors (`core/errors.py`), plus the uncaught
`pydantic.ValidationError` a bad cached payload would raise. -/
inductive AppError
  | validation (code : List Char) (message : List Char)
  | llm (message : List Char)
  | pydantic
  deriving DecidableEq

/-- Embedding of `AnalysisService._validate_inputs`: the minimum-length checks
(`min_cv_chars` configurable, 50 hard-coded for the job text); `not cv_text`
is the empty string check. -/
def _validate_inputs (cv_text job_text : List Char) (min_cv_chars : Nat) :
    Option AppError :=
  if cv_text = [] ∨ (stripBy isPyWs cv_text).length < min_cv_chars then
    some (.validation "cv_text_too_short".toList
      "CV text is too short. PDF may be image-based (OCR not supported in MVP).".toList)
  else if job_text = [] ∨ (stripBy isPyWs job_text).length < 50 then
    some (.validation "job_text_too_short".toList
      "Job description is too short (minimum 50 characters).".toList)
  else none

/-- The raw structured JSON the analysis LLM returns (`generate_json` under the
response schema): the content fields of the response; `analyze` merges in
`warnings` and `cached=False` before validating. -/
structure LLMRaw where
  summary : List Char
  fit_score : Int
  fit_score_rationale : List Char
  strengths : List (List Char)
  gaps : List (List Char)
  missing_keywords : List (List Char)
  rewrite_suggestions : List (List Char)
  ats_notes : List (List Char)
  red_flags : List (List Char)
  next_steps : List (List Char)
  evidence : List EvidenceItem
  confidence : Confidence
  deriving DecidableEq

/-- `{**raw_response, "warnings": warnings, "cached": False}`. -/
def rawToDump (raw : LLMRaw) (warnings : List (List Char)) : DumpedAnalysis :=
  { summary := raw.summary, fit_score := raw.fit_score,
    fit_score_rationale := raw.fit_score_rationale, strengths := raw.strengths,
    gaps := raw.gaps, missing_keywords := raw.missing_keywords,
    rewrite_suggestions := raw.rewrite_suggestions, ats_notes := raw.ats_notes,
    red_flags := raw.red_flags, next_steps := raw.next_steps,
    evidence := raw.evidence, confidence := raw.confidence,
    warnings := warnings, cached := false }

/-- The response a successful `model_validate` constructs (all fields carried
over from the plain data). -/
def asResponse (d : DumpedAnalysis) : CVAnalysisResponse :=
  ⟨d.summary, d.fit_score, d.fit_score_rationale, d.strengths, d.gaps,
   d.missing_keywords, d.rewrite_suggestions, d.ats_notes, d.red_flags,
   d.next_steps, d.evidence, d.confidence, d.warnings, d.cached⟩

/-- Embedding of `AnalysisService._get_from_cache`: absence gives `none`; a
dict value is re-validated with `cached` forced to `True`; a model instance is
dumped first and then treated the same way. A validation failure is the
propagated `pydantic.ValidationError`. -/
def _get_from_cache (c : SimpleTTLCache) (cache_key : List Char) (now : ℚ) :
    Except AppError (Option CVAnalysisResponse × SimpleTTLCache) :=
  match cacheGet c cache_key now with
  | (none, c2) => .ok (none, c2)
  | (some (AnalysisValue.dict d), c2) =>
      match model_validate (setCached d true) with
      | some r => .ok (some r, c2)
      | none => .error .pydantic
  | (some (AnalysisValue.model m), c2) =>
      match model_validate (setCached (model_dump m) true) with
      | some r => .ok (some r, c2)
      | none => .error .pydantic

/-- Embedding of `AnalysisService.analyze`. The LLM boundary is an oracle from
the prepared (CV text, job text) pair to the structured JSON it returns:
`build_prompt` interpolates exactly that pair into a fixed template, and
`_generate_analysis` passes the prompt plus the fixed response schema to
`generate_json`, so the pair determines the call. The configured limits
(`min_cv_chars`, `max_cv_chars`, `max_job_desc_chars`) are parameters, `now`
is the clock value the cache operations observe, and the result carries the
updated cache state and the number of analysis-LLM invocations made. -/
def analyze (llm : List Char × List Char → LLMRaw) (cache : SimpleTTLCache)
    (cv_text job_text : List Char) (warnings : List (List Char))
    (min_cv_chars max_cv_chars max_job_desc_chars : Nat) (now : ℚ) :
    Except AppError (CVAnalysisResponse × SimpleTTLCache × Nat) :=
  match _validate_inputs cv_text job_text min_cv_chars with
  | some e => .error e
  | none =>
      let prep := _prepare_inputs cv_text job_text warnings max_cv_chars max_job_desc_chars
      let cache_key := _hash_inputs (prep.1.map Char.toNat) (prep.2.1.map Char.toNat)
      match _get_from_cache cache cache_key now with
      | .error e => .error e
      | .ok (some cached_analysis, c2) => .ok (cached_analysis, c2, 0)
      | .ok (none, c2) =>
          let raw := llm (prep.1, prep.2.1)
          match model_validate (rawToDump raw prep.2.2) with
          | none => .error (.llm "LLM returned invalid analysis payload".toList)
          | some analysis =>
              .ok (analysis, cacheSet c2 cache_key (.dict (model_dump analysis)) now, 1)

/-- The judge LLM's behaviour on one semantic-validation call. Modelled from
the spec: the gate asks for a structured reply shaped as
`{is_valid_cv|is_valid_job: boolean, confidence: float 0..1, reason: string,
detected_elements: list of string}`; the remaining constructors are the three
fail-open conditions the spec names (the LLM call raising, a reply missing
required fields, a reply with unexpected field types). -/
inductive JudgeOutcome
  | reply (is_valid : Bool) (confidence : ℚ) (reason : List Char)
      (detected_elements : List (List Char))
  | incomplete
  | unexpectedTypes
  | raised
  deriving DecidableEq

/-- Modelled from the spec: `AnalysisService._validate_cv_semantic_content`,
which the unit tests call but which is absent from `analysis_service.py` under
src. If the gate is enabled, the LLM judges the first 2000 characters; the
text is treated as valid only when the returned flag is true and confidence is
at least 0.7, and otherwise a validation error with code `invalid_cv_content`
whose message states the text "doesn't appear to be a valid CV" is raised. On
an LLM error, an incomplete reply or unexpected field types, the gate logs and
fails open. -/
def _validate_cv_semantic_content (enable_semantic_validation : Bool)
    (judge : List Char → JudgeOutcome) (cv_text : List Char) : Option AppError :=
  if enable_semantic_validation = false then none
  else
    match judge (cv_text.take 2000) with
    | .reply is_valid confidence _ _ =>
        if is_valid = true ∧ 7 / 10 ≤ confidence then none
        else some (.validation "invalid_cv_content".toList
          "The text doesn't appear to be a valid CV.".toList)
    | _ => none

/-- Modelled from the spec: `AnalysisService._validate_job_semantic_content`,
the job-text counterpart of the CV gate (code `invalid_job_content`, message
stating the text "doesn't appear to be a valid job description"). -/
def _validate_job_semantic_content (enable_semantic_validation : Bool)
    (judge : List Char → JudgeOutcome) (job_text : List Char) : Option AppError :=
  if enable_semantic_validation = false then none
  else
    match judge (job_text.take 2000) with
    | .reply is_valid confidence _ _ =>
        if is_valid = true ∧ 7 / 10 ≤ confidence then none
        else some (.validation "invalid_job_content".toList
          "The text doesn't appear to be a valid job description.".toList)
    | _ => none

/-- Modelled from the spec: `analyze` with the semantic content gate in place
(the gate's invocation is likewise absent from the `analyze` present in src).
Per the spec's pipeline order: minimum-length validation, then the CV gate,
then the job gate, then the rest of the pipeline exactly as `analyze`. -/
def analyze_gated (enable_semantic_validation : Bool)
    (judgeCv judgeJob : List Char → JudgeOutcome)
    (llm : List Char × List Char → LLMRaw) (cache : SimpleTTLCache)
    (cv_text job_text : List Char) (warnings : List (List Char))
    (min_cv_chars max_cv_chars max_job_desc_chars : Nat) (now : ℚ) :
    Except AppError (CVAnalysisResponse × SimpleTTLCache × Nat) :=
  match _validate_inputs cv_text job_text min_cv_chars with
  | some e => .error e
  | none =>
      match _validate_cv_semantic_content enable_semantic_validation judgeCv cv_text with
      | some e => .error e
      | none =>
          match _validate_job_semantic_content enable_semantic_validation judgeJob
              job_text with
          | some e => .error e
          | none =>
              analyze llm cache cv_text job_text warnings min_cv_chars max_cv_chars
                max_job_desc_chars now

end CvAnalyzer

namespace CvAnalyzer

example : normalize_text "a\r\n\r\n\r\n\tb  c\r".toList = "a\n\n b c".toList := by decide

example : normalize_text "  x\t\ty \n\n\n\n z ".toList = "x y \n\n z".toList := by decide

theorem replaceCR_no_cr (l : List Char) : '\r' ∉ replaceCR l := by
  induction l using replaceCR.induct with
  | case1 => simp [replaceCR]
  | case2 c =>
      by_cases h : c = '\r' <;> simp [replaceCR, h] <;>
        first
          | decide
          | exact fun hc => h hc.symm
  | case3 rest ih => simp [replaceCR]; exact ih
  | case4 c2 rest h2 ih => simp [replaceCR, h2]; exact ih
  | case5 c1 c2 rest h1 ih =>
      simp [replaceCR, h1]
      exact ⟨fun hc => h1 hc.symm, ih⟩

theorem replaceCR_eq_self (l : List Char) (h : '\r' ∉ l) : replaceCR l = l := by
  induction l using replaceCR.induct with
  | case1 => rfl
  | case2 c =>
      simp only [List.mem_singleton] at h
      simp only [replaceCR]
      rw [if_neg (fun hc => h hc.symm)]
  | case3 rest ih => simp at h
  | case4 c2 rest h2 ih => simp at h
  | case5 c1 c2 rest h1 ih =>
      simp only [List.mem_cons, not_or] at h
      simp [replaceCR, h1, ih (by simp [h.2.1, h.2.2])]

theorem mem_collapseSpaces (l : List Char) (c : Char) (h : c ∈ collapseSpaces l) :
    c = ' ' ∨ c ∈ l := by
  induction l using collapseSpaces.induct with
  | case1 => simp [collapseSpaces] at h
  | case2 x hx =>
      simp only [collapseSpaces, hx, if_pos, List.mem_singleton] at h
      exact Or.inl h
  | case3 x hx =>
      simp [collapseSpaces, hx] at h
      simp [h]
  | case4 c1 c2 rest hc ih =>
      simp only [collapseSpaces, hc, if_pos] at h
      rcases ih h with h1 | h1
      · exact Or.inl h1
      · exact Or.inr (List.mem_cons_of_mem _ h1)
  | case5 c1 c2 rest hc ih =>
      simp only [collapseSpaces, hc, if_neg] at h
      rcases List.mem_cons.mp h with h1 | h1
      · rcases h1 with h1
        split at h1 <;> simp [h1]
      · rcases ih h1 with h2 | h2
        · exact Or.inl h2
        · exact Or.inr (List.mem_cons_of_mem _ h2)

theorem collapseSpaces_head (l : List Char) :
    (collapseSpaces l).head? = l.head?.map (fun c => if isSpaceTab c then ' ' else c) := by
  induction l using collapseSpaces.induct with
  | case1 => simp [collapseSpaces]
  | case2 c hc => simp [collapseSpaces, hc]
  | case3 c hc => simp [collapseSpaces, hc]
  | case4 c1 c2 rest hc ih =>
      have h1 : isSpaceTab c1 = true := (Bool.and_eq_true_iff.mp hc).1
      have h2 : isSpaceTab c2 = true := (Bool.and_eq_true_iff.mp hc).2
      simp [collapseSpaces, hc, ih, h1, h2]
  | case5 c1 c2 rest hc ih =>
      simp [collapseSpaces, hc]

theorem collapseSpaces_no_tab (l : List Char) : '\t' ∉ collapseSpaces l := by
  induction l using collapseSpaces.induct with
  | case1 => simp [collapseSpaces]
  | case2 c hc => simp [collapseSpaces, hc]
  | case3 c hc =>
      simp [collapseSpaces, hc]
      intro h
      rw [← h] at hc
      exact hc (by decide)
  | case4 c1 c2 rest hc ih => simpa [collapseSpaces, hc] using ih
  | case5 c1 c2 rest hc ih =>
      simp [collapseSpaces, hc, List.mem_cons, not_or]
      refine ⟨?_, ih⟩
      split
      · decide
      · rename_i h1
        intro h
        rw [← h] at h1
        exact h1 (by decide)

theorem isSpaceTab_ite (c : Char) :
    isSpaceTab (if isSpaceTab c then ' ' else c) = isSpaceTab c := by
  by_cases h : isSpaceTab c <;> simp [h] <;> decide

theorem noAdjST_cons (x : Char) (xs : List Char) (h : noAdjST (x :: xs) = true) :
    noAdjST xs = true := by
  cases xs with
  | nil => rfl
  | cons y t => exact (Bool.and_eq_true_iff.mp h).2

theorem noAdjST_head2 (a b : Char) (l : List Char) (h : noAdjST (a :: b :: l) = true) :
    (isSpaceTab a && isSpaceTab b) = false := by
  have h1 := (Bool.and_eq_true_iff.mp h).1
  cases hab : (isSpaceTab a && isSpaceTab b) with
  | false => rfl
  | true => rw [hab] at h1; simp at h1

theorem no3NL_cons (x : Char) (xs : List Char) (h : no3NL (x :: xs) = true) :
    no3NL xs = true := by
  cases xs with
  | nil => rfl
  | cons y t =>
      cases t with
      | nil => rfl
      | cons z t2 => exact (Bool.and_eq_true_iff.mp h).2

theorem collapseSpaces_noAdjST (l : List Char) : noAdjST (collapseSpaces l) = true := by
  induction l using collapseSpaces.induct with
  | case1 => rfl
  | case2 c hc => simp [collapseSpaces, hc, noAdjST]
  | case3 c hc => simp [collapseSpaces, hc, noAdjST]
  | case4 c1 c2 rest hc ih => simpa [collapseSpaces, hc] using ih
  | case5 c1 c2 rest hc ih =>
      have hhead := collapseSpaces_head (c2 :: rest)
      rcases hcs : collapseSpaces (c2 :: rest) with _ | ⟨h0, t⟩
      · rw [hcs] at hhead
        simp at hhead
      · rw [hcs] at hhead
        simp only [List.head?, Option.map_some] at hhead
        have hh0 : h0 = if isSpaceTab c2 then ' ' else c2 := by
          simpa using hhead
        rw [hcs] at ih
        have hx : isSpaceTab (if isSpaceTab c1 then ' ' else c1) = isSpaceTab c1 :=
          isSpaceTab_ite c1
        have hy : isSpaceTab h0 = isSpaceTab c2 := by
          rw [hh0]; exact isSpaceTab_ite c2
        simp only [collapseSpaces, hc, if_neg, hcs]
        show noAdjST ((if isSpaceTab c1 then ' ' else c1) :: h0 :: t) = true
        have hfalse : (isSpaceTab c1 && isSpaceTab c2) = false := by
          simpa using hc
        simp only [noAdjST, hx, hy, hfalse, Bool.and_eq_true]
        exact ⟨by simp, ih⟩

theorem collapseSpaces_eq_self (l : List Char) (ht : '\t' ∉ l) (h : noAdjST l = true) :
    collapseSpaces l = l := by
  induction l using collapseSpaces.induct with
  | case1 => rfl
  | case2 c hc =>
      have hcsp : c = ' ' := by
        have h2 := hc
        simp [isSpaceTab] at h2
        rcases h2 with h1 | h1
        · exact h1
        · exact absurd (by simp [h1] : '\t' ∈ [c]) ht
      simp [collapseSpaces, hc, hcsp]
  | case3 c hc => simp [collapseSpaces, hc]
  | case4 c1 c2 rest hc ih =>
      exact absurd hc (by simp [noAdjST_head2 c1 c2 rest h])
  | case5 c1 c2 rest hc ih =>
      have ht2 : '\t' ∉ c2 :: rest := fun hmem => ht (List.mem_cons_of_mem _ hmem)
      have hrec := ih ht2 (noAdjST_cons _ _ h)
      have hhd : (if isSpaceTab c1 then ' ' else c1) = c1 := by
        by_cases h1 : isSpaceTab c1
        · have hsp : c1 = ' ' := by
            simp [isSpaceTab] at h1
            rcases h1 with h2 | h2
            · exact h2
            · exact absurd (by simp [h2] : '\t' ∈ c1 :: c2 :: rest) ht
          simp [h1, hsp]
        · simp [h1]
      simp [collapseSpaces, hc, hrec, hhd]

theorem collapseNewlines_short (l : List Char)
    (h : ∀ a b c rest, l = a :: b :: c :: rest → False) : collapseNewlines l = l := by
  match l with
  | [] => rfl
  | [a] => rfl
  | [a, b] => rfl
  | a :: b :: c :: rest => exact absurd rfl (h a b c rest)

theorem mem_collapseNewlines (l : List Char) (x : Char) (h : x ∈ collapseNewlines l) :
    x ∈ l := by
  induction l using collapseNewlines.induct with
  | case1 a b c rest hc ih =>
      simp only [collapseNewlines, hc, if_pos] at h
      exact List.mem_cons_of_mem _ (ih h)
  | case2 a b c rest hc ih =>
      simp only [collapseNewlines, hc, if_neg] at h
      rcases List.mem_cons.mp h with h1 | h1
      · simp [h1]
      · exact List.mem_cons_of_mem _ (ih h1)
  | case3 l hshape => rwa [collapseNewlines_short l hshape] at h

theorem collapseNewlines_take2 (l : List Char) :
    (collapseNewlines l).take 2 = l.take 2 := by
  induction l using collapseNewlines.induct with
  | case1 a b c rest hc ih =>
      obtain ⟨⟨ha, hb⟩, hcn⟩ : (a = '\n' ∧ b = '\n') ∧ c = '\n' := by
        simpa [Bool.and_eq_true] using hc
      have hstep : collapseNewlines (a :: b :: c :: rest) = collapseNewlines (b :: c :: rest) := by
        simp [collapseNewlines, hc]
      rw [hstep, ih]
      subst ha hb hcn
      simp
  | case2 a b c rest hc ih =>
      have hstep : collapseNewlines (a :: b :: c :: rest) = a :: collapseNewlines (b :: c :: rest) := by
        simp [collapseNewlines, hc]
      have h1 : (collapseNewlines (b :: c :: rest)).take 1 = [b] := by
        have h2 := congrArg (List.take 1) ih
        simpa [List.take_take] using h2
      rw [hstep]
      simp [List.take_succ_cons, h1]
  | case3 l hshape => rw [collapseNewlines_short l hshape]

theorem collapseNewlines_cons2 (b c : Char) (rest : List Char) :
    ∃ t, collapseNewlines (b :: c :: rest) = b :: c :: t := by
  have h2 := collapseNewlines_take2 (b :: c :: rest)
  rcases hcs : collapseNewlines (b :: c :: rest) with _ | ⟨x, _ | ⟨y, t⟩⟩ <;>
      rw [hcs] at h2 <;> simp [List.take_succ_cons] at h2
  · exact ⟨t, by rw [h2.1, h2.2]⟩

theorem collapseNewlines_no3NL (l : List Char) : no3NL (collapseNewlines l) = true := by
  induction l using collapseNewlines.induct with
  | case1 a b c rest hc ih => simpa [collapseNewlines, hc] using ih
  | case2 a b c rest hc ih =>
      obtain ⟨t, ht⟩ := collapseNewlines_cons2 b c rest
      have hstep : collapseNewlines (a :: b :: c :: rest) = a :: collapseNewlines (b :: c :: rest) := by
        simp [collapseNewlines, hc]
      rw [hstep, ht]
      rw [ht] at ih
      have hfalse : (a == '\n' && b == '\n' && c == '\n') = false := by
        simpa using hc
      rw [show no3NL (a :: b :: c :: t) =
            (!(a == '\n' && b == '\n' && c == '\n') && no3NL (b :: c :: t)) from rfl]
      rw [hfalse]
      simpa using ih
  | case3 l hshape =>
      rw [collapseNewlines_short l hshape]
      match l, hshape with
      | [], _ => rfl
      | [a], _ => rfl
      | [a, b], _ => rfl
      | a :: b :: c :: rest, hs => exact absurd rfl (hs a b c rest)

theorem collapseNewlines_noAdjST (l : List Char) (h : noAdjST l = true) :
    noAdjST (collapseNewlines l) = true := by
  induction l using collapseNewlines.induct with
  | case1 a b c rest hc ih =>
      simpa [collapseNewlines, hc] using ih (noAdjST_cons _ _ h)
  | case2 a b c rest hc ih =>
      obtain ⟨t, ht⟩ := collapseNewlines_cons2 b c rest
      have hstep : collapseNewlines (a :: b :: c :: rest) = a :: collapseNewlines (b :: c :: rest) := by
        simp [collapseNewlines, hc]
      have ih2 := ih (noAdjST_cons _ _ h)
      rw [hstep, ht]
      rw [ht] at ih2
      rw [show noAdjST (a :: b :: c :: t) =
            (!(isSpaceTab a && isSpaceTab b) && noAdjST (b :: c :: t)) from rfl]
      rw [noAdjST_head2 a b (c :: rest) h]
      simpa using ih2
  | case3 l hshape => rwa [collapseNewlines_short l hshape]

theorem collapseNewlines_eq_self (l : List Char) (h : no3NL l = true) :
    collapseNewlines l = l := by
  induction l using collapseNewlines.induct with
  | case1 a b c rest hc ih =>
      exfalso
      have h1 := (Bool.and_eq_true_iff.mp h).1
      rw [hc] at h1
      simp at h1
  | case2 a b c rest hc ih =>
      have hstep : collapseNewlines (a :: b :: c :: rest) = a :: collapseNewlines (b :: c :: rest) := by
        simp [collapseNewlines, hc]
      rw [hstep, ih (no3NL_cons _ _ h)]
  | case3 l hshape => exact collapseNewlines_short l hshape

theorem noAdjST_append_left (l1 l2 : List Char) (h : noAdjST (l1 ++ l2) = true) :
    noAdjST l1 = true := by
  induction l1 with
  | nil => rfl
  | cons a t ih =>
      cases t with
      | nil => rfl
      | cons b r =>
          have h1 : (!(isSpaceTab a && isSpaceTab b)) = true := (Bool.and_eq_true_iff.mp h).1
          have h2 := ih (noAdjST_cons _ _ h)
          rw [show noAdjST (a :: b :: r) =
                (!(isSpaceTab a && isSpaceTab b) && noAdjST (b :: r)) from rfl]
          rw [h1, h2]
          rfl

theorem noAdjST_append_right (l1 l2 : List Char) (h : noAdjST (l1 ++ l2) = true) :
    noAdjST l2 = true := by
  induction l1 with
  | nil => exact h
  | cons a t ih => exact ih (noAdjST_cons _ _ h)

theorem no3NL_append_left (l1 l2 : List Char) (h : no3NL (l1 ++ l2) = true) :
    no3NL l1 = true := by
  induction l1 with
  | nil => rfl
  | cons a t ih =>
      cases t with
      | nil => rfl
      | cons b r =>
          cases r with
          | nil => rfl
          | cons c q =>
              have h1 : (!(a == '\n' && b == '\n' && c == '\n')) = true :=
                (Bool.and_eq_true_iff.mp h).1
              have h2 := ih (no3NL_cons _ _ h)
              rw [show no3NL (a :: b :: c :: q) =
                    (!(a == '\n' && b == '\n' && c == '\n') && no3NL (b :: c :: q)) from rfl]
              rw [h1, h2]
              rfl

theorem no3NL_append_right (l1 l2 : List Char) (h : no3NL (l1 ++ l2) = true) :
    no3NL l2 = true := by
  induction l1 with
  | nil => exact h
  | cons a t ih => exact ih (no3NL_cons _ _ h)

theorem dropTrailing_decomp (p : α → Bool) (l : List α) :
    ∃ s, l = dropTrailing p l ++ s := by
  induction l with
  | nil => exact ⟨[], rfl⟩
  | cons c rest ih =>
      obtain ⟨s, hs⟩ := ih
      by_cases hb : ((dropTrailing p rest).isEmpty && p c) = true
      · exact ⟨c :: rest, by simp [dropTrailing, hb]⟩
      · refine ⟨s, ?_⟩
        simp only [dropTrailing, hb, if_neg, List.cons_append]
        exact congrArg (c :: ·) hs

theorem dropTrailing_head (p : α → Bool) (l : List α) (h : dropTrailing p l ≠ []) :
    (dropTrailing p l).head? = l.head? := by
  cases l with
  | nil => exact absurd rfl h
  | cons c rest =>
      by_cases hb : ((dropTrailing p rest).isEmpty && p c) = true
      · exact absurd (by simp [dropTrailing, hb]) h
      · simp [dropTrailing, hb]

theorem dropTrailing_getLast (p : α → Bool) (l : List α) (x : α)
    (h : (dropTrailing p l).getLast? = some x) : p x = false := by
  induction l with
  | nil => simp [dropTrailing] at h
  | cons c rest ih =>
      by_cases hb : ((dropTrailing p rest).isEmpty && p c) = true
      · simp [dropTrailing, hb] at h
      · rw [show dropTrailing p (c :: rest) = c :: dropTrailing p rest from by
            simp [dropTrailing, hb]] at h
        cases hr : dropTrailing p rest with
        | nil =>
            rw [hr] at h
            simp only [List.getLast?_singleton, Option.some_inj] at h
            rw [hr] at hb
            simp only [List.isEmpty_nil, Bool.true_and] at hb
            rw [← h]
            exact Bool.not_eq_true _ ▸ (by simpa using hb)
        | cons y t =>
            rw [hr] at h
            rw [List.getLast?_cons_cons] at h
            rw [← hr] at h
            exact ih h

theorem dropTrailing_eq_self (p : α → Bool) (l : List α)
    (h : ∀ x, l.getLast? = some x → p x = false) : dropTrailing p l = l := by
  induction l with
  | nil => rfl
  | cons c rest ih =>
      cases rest with
      | nil =>
          have hc : p c = false := h c (by simp)
          simp [dropTrailing, hc]
      | cons d t =>
          have hrec : dropTrailing p (d :: t) = d :: t := by
            apply ih
            intro x hx
            exact h x (by rw [List.getLast?_cons_cons]; exact hx)
          rw [show dropTrailing p (c :: d :: t) =
                (if ((dropTrailing p (d :: t)).isEmpty && p c) = true then []
                 else c :: dropTrailing p (d :: t)) from rfl]
          rw [hrec]
          simp

theorem head_dropWhile (p : α → Bool) (l : List α) (x : α)
    (h : (l.dropWhile p).head? = some x) : p x = false := by
  induction l with
  | nil => simp at h
  | cons c rest ih =>
      by_cases hc : p c = true
      · rw [List.dropWhile_cons_of_pos hc] at h
        exact ih h
      · rw [List.dropWhile_cons_of_neg hc] at h
        simp only [List.head?_cons, Option.some_inj] at h
        rw [← h]
        simpa using hc

theorem dropWhile_eq_self_of_head (p : α → Bool) (l : List α)
    (h : ∀ x, l.head? = some x → p x = false) : l.dropWhile p = l := by
  cases l with
  | nil => rfl
  | cons c rest =>
      have hc : p c = false := h c rfl
      simp [List.dropWhile, hc]

theorem mem_dropTrailing (p : α → Bool) (l : List α) (a : α) (h : a ∈ dropTrailing p l) :
    a ∈ l := by
  obtain ⟨s, hs⟩ := dropTrailing_decomp p l
  rw [hs]
  exact List.mem_append_left _ h

theorem mem_stripBy (p : α → Bool) (l : List α) (a : α) (h : a ∈ stripBy p l) : a ∈ l := by
  have h1 : a ∈ l.dropWhile p := mem_dropTrailing p _ a h
  exact (List.dropWhile_sublist p).mem h1

theorem stripBy_idem (p : α → Bool) (l : List α) : stripBy p (stripBy p l) = stripBy p l := by
  show dropTrailing p ((dropTrailing p (l.dropWhile p)).dropWhile p) =
    dropTrailing p (l.dropWhile p)
  by_cases hz : dropTrailing p (l.dropWhile p) = []
  · rw [hz]
    rfl
  · have hdw : (dropTrailing p (l.dropWhile p)).dropWhile p =
        dropTrailing p (l.dropWhile p) := by
      apply dropWhile_eq_self_of_head
      intro x hx
      rw [dropTrailing_head p _ hz] at hx
      exact head_dropWhile p l x hx
    rw [hdw]
    apply dropTrailing_eq_self
    intro x hx
    exact dropTrailing_getLast p _ x hx

theorem noAdjST_stripBy (p : Char → Bool) (l : List Char) (h : noAdjST l = true) :
    noAdjST (stripBy p l) = true := by
  have h1 : noAdjST (l.dropWhile p) = true := by
    apply noAdjST_append_right (l.takeWhile p)
    rw [List.takeWhile_append_dropWhile]
    exact h
  obtain ⟨s, hs⟩ := dropTrailing_decomp p (l.dropWhile p)
  have h2 : noAdjST (dropTrailing p (l.dropWhile p)) = true := by
    apply noAdjST_append_left _ s
    rw [← hs]
    exact h1
  exact h2

theorem no3NL_stripBy (p : Char → Bool) (l : List Char) (h : no3NL l = true) :
    no3NL (stripBy p l) = true := by
  have h1 : no3NL (l.dropWhile p) = true := by
    apply no3NL_append_right (l.takeWhile p)
    rw [List.takeWhile_append_dropWhile]
    exact h
  obtain ⟨s, hs⟩ := dropTrailing_decomp p (l.dropWhile p)
  have h2 : no3NL (dropTrailing p (l.dropWhile p)) = true := by
    apply no3NL_append_left _ s
    rw [← hs]
    exact h1
  exact h2

theorem normalize_text_invariants (t : List Char) :
    '\r' ∉ normalize_text t ∧ '\t' ∉ normalize_text t ∧
      noAdjST (normalize_text t) = true ∧ no3NL (normalize_text t) = true := by
  refine ⟨?_, ?_, ?_, ?_⟩
  · intro hmem
    have h1 := mem_collapseNewlines _ _ (mem_stripBy _ _ _ hmem)
    rcases mem_collapseSpaces _ _ h1 with h2 | h2
    · exact absurd h2 (by decide)
    · exact replaceCR_no_cr t h2
  · intro hmem
    have h1 := mem_collapseNewlines _ _ (mem_stripBy _ _ _ hmem)
    exact collapseSpaces_no_tab _ h1
  · exact noAdjST_stripBy _ _ (collapseNewlines_noAdjST _ (collapseSpaces_noAdjST _))
  · exact no3NL_stripBy _ _ (collapseNewlines_no3NL _)

/-- C9: for every string `t`, `normalize_text (normalize_text t) = normalize_text t`:
the text normalizer of `app/utils/text_normalizer.py` (replace `\r\n` and `\r`
with `\n`, collapse space/tab runs to a single space, collapse three or more
consecutive newlines to exactly two, trim surrounding whitespace) is idempotent. -/
theorem normalize_text_idempotent (t : List Char) :
    normalize_text (normalize_text t) = normalize_text t := by
  obtain ⟨hcr, htab, hadj, h3⟩ := normalize_text_invariants t
  have e1 : replaceCR (normalize_text t) = normalize_text t := replaceCR_eq_self _ hcr
  have e2 : collapseSpaces (normalize_text t) = normalize_text t :=
    collapseSpaces_eq_self _ htab hadj
  have e3 : collapseNewlines (normalize_text t) = normalize_text t :=
    collapseNewlines_eq_self _ h3
  show stripBy isPyWs (collapseNewlines (collapseSpaces (replaceCR (normalize_text t)))) =
    normalize_text t
  rw [e1, e2, e3]
  show stripBy isPyWs
      (stripBy isPyWs (collapseNewlines (collapseSpaces (replaceCR t)))) =
    stripBy isPyWs (collapseNewlines (collapseSpaces (replaceCR t)))
  exact stripBy_idem isPyWs _

example :
    _hash_inputs (strCodes "a") (strCodes "b") =
      (hexdigest (sha256 (strCodes "v1::a::b"))) := by rfl

example :
    hexdigest (sha256 (strCodes "abc")) =
      "ba7816bf8f01cfea414140de5dae2223b00361a396177a9cb410ff61f20015ad".toList := by
  decide

example : pdfTooManyPagesMsg 51 50 = "PDF has too many pages: 51 (max allowed: 50)".toList := by
  decide

example :
    docxTooManyParagraphsMsg 501 500 =
      "DOCX has too many paragraphs: 501 (max allowed: 500)".toList := by
  decide

example : unsupportedFileTypeMsg = "Unsupported file type. Only DOCX, PDF are allowed.".toList := by
  decide

/-- C3: `extract_text_from_pdf_bytes` fails with the "too many pages" error --
whose message contains both the actual page count and the configured maximum --
exactly when the page count exceeds the maximum; the outcome in that case is
determined by the page count alone (so no page is visited); a document with
page count at most the maximum (including exactly the maximum) extracts
successfully, returning the per-page texts joined with a newline, stripped,
and the page count as metadata. -/
theorem extract_text_from_pdf_bytes_spec (pages : List (Option (List Char)))
    (maxPages : Nat) :
    (pages.length > maxPages →
      extract_text_from_pdf_bytes pages maxPages =
          Except.error (pdfTooManyPagesMsg pages.length maxPages) ∧
        natChars pages.length <:+: pdfTooManyPagesMsg pages.length maxPages ∧
        natChars maxPages <:+: pdfTooManyPagesMsg pages.length maxPages ∧
        ∀ pages2 : List (Option (List Char)), pages2.length = pages.length →
          extract_text_from_pdf_bytes pages2 maxPages =
            extract_text_from_pdf_bytes pages maxPages) ∧
    (pages.length ≤ maxPages →
      extract_text_from_pdf_bytes pages maxPages =
        Except.ok
          (stripBy isPyWs (List.intercalate ['\n'] (pages.map (fun p => p.getD []))),
            pages.length)) := by
  constructor
  · intro h
    refine ⟨?_, ?_, ?_, ?_⟩
    · simp only [extract_text_from_pdf_bytes]
      rw [if_pos h]
    · exact ⟨"PDF has too many pages: ".toList,
        " (max allowed: ".toList ++ natChars maxPages ++ ")".toList,
        by simp [pdfTooManyPagesMsg]⟩
    · exact ⟨"PDF has too many pages: ".toList ++ natChars pages.length ++
          " (max allowed: ".toList, ")".toList,
        by simp [pdfTooManyPagesMsg]⟩
    · intro pages2 h2
      simp only [extract_text_from_pdf_bytes]
      rw [h2, if_pos h, if_pos h]
  · intro h
    simp only [extract_text_from_pdf_bytes]
    rw [if_neg (by omega)]

/-- Witness for C3: a 2-page document against a 1-page ceiling fails with the
message carrying both counts, and against a 2-page ceiling (exactly the
maximum) extracts successfully. -/
theorem extract_text_from_pdf_bytes_spec_witness :
    extract_text_from_pdf_bytes [some "hi".toList, none] 1 =
        Except.error (pdfTooManyPagesMsg 2 1) ∧
      extract_text_from_pdf_bytes [some "hi".toList, none] 2 =
        Except.ok ("hi".toList, 2) := by
  constructor
  · exact ((extract_text_from_pdf_bytes_spec [some "hi".toList, none] 1).1 (by decide)).1
  · have h := (extract_text_from_pdf_bytes_spec [some "hi".toList, none] 2).2 (by decide)
    rw [h]
    rfl

/-- C5 counterexample: a three-paragraph document whose middle paragraph is
empty is within the ceiling (3 of at most 500), yet the extractor's metadata
reports 2 paragraphs, not the ceiling-checked count 3. -/
theorem extract_text_from_docx_bytes_meta_cex :
    ([['a'], [], ['b']] : List (List Char)).length = 3 ∧
      (3 : Nat) ≤ max_docx_paragraphs ∧
      extract_text_from_docx_bytes [['a'], [], ['b']] max_docx_paragraphs =
        Except.ok ("a\nb".toList, 2) ∧
      (2 : Nat) ≠ 3 :=
  ⟨by decide, by decide, by rfl, by decide⟩

/-- C5 (amended): for documents within the ceiling, the DOCX extractor's
metadata `paragraphs` field equals the number of non-empty paragraphs (the
ones whose texts are joined), while the ceiling itself is checked against the
total paragraph count; the two counts coincide whenever every paragraph is
non-empty. -/
theorem extract_text_from_docx_bytes_spec (docParagraphs : List (List Char))
    (maxParas : Nat) (h : docParagraphs.length ≤ maxParas) :
    extract_text_from_docx_bytes docParagraphs maxParas =
      Except.ok
        (stripBy isPyWs
          (List.intercalate ['\n'] (docParagraphs.filter (fun p => !p.isEmpty))),
          (docParagraphs.filter (fun p => !p.isEmpty)).length) ∧
    ((∀ p ∈ docParagraphs, p ≠ []) →
      (docParagraphs.filter (fun p => !p.isEmpty)).length = docParagraphs.length) := by
  constructor
  · simp only [extract_text_from_docx_bytes]
    rw [if_neg (by omega)]
  · intro hall
    rw [List.filter_eq_self.mpr]
    intro p hp
    simpa using hall p hp

/-- Witness for C5 (amended): a two-paragraph document with one empty paragraph
within a ceiling of 2 yields metadata 1, which is the non-empty count. -/
theorem extract_text_from_docx_bytes_spec_witness :
    extract_text_from_docx_bytes [['a'], []] 2 = Except.ok ("a".toList, 1) := by
  have h := (extract_text_from_docx_bytes_spec [['a'], []] 2 (by decide)).1
  rw [h]
  rfl

/-- C4 counterexample: the parser's type-validation step
(`cv_parser_service._validate_file_type`) rejects the declared content type
`application/vnd.ms-word.document.macroEnabled.12` with the
unsupported-file-type error instead of mapping it to docx. -/
theorem validate_file_type_macro_cex :
    _validate_file_type
        (some "application/vnd.ms-word.document.macroEnabled.12".toList) =
      Except.error "Unsupported file type. Only DOCX, PDF are allowed.".toList := by
  rfl

/-- C4 (amended): the shared MIME table (`get_file_type_from_mime`) does map the
macro-enabled DOCX MIME type to docx, but the parser's type-validation step
consults its own module-local `SUPPORTED_MIME_TYPES` table, which lacks that
entry, so such an upload fails with the unsupported-file-type error listing the
supported formats. -/
theorem validate_file_type_macro_amended :
    get_file_type_from_mime "application/vnd.ms-word.document.macroEnabled.12".toList =
        some "docx".toList ∧
      _validate_file_type
          (some "application/vnd.ms-word.document.macroEnabled.12".toList) =
        Except.error unsupportedFileTypeMsg ∧
      unsupportedFileTypeMsg =
        "Unsupported file type. Only DOCX, PDF are allowed.".toList :=
  ⟨by rfl, by rfl, by decide⟩

/-- C7: `_prepare_inputs` clips the CV text to `max_cv_chars` and the job text
to `max_job_desc_chars` -- a longer input's forwarded text is exactly its first
`max_cv_chars` (resp. `max_job_desc_chars`) characters, of length equal to the
configured maximum exactly -- and appends exactly one shared truncation warning
when at least one of the two texts was clipped, and none otherwise. -/
theorem prepare_inputs_spec (cv job : List Char) (warnings : List (List Char))
    (maxCv maxJob : Nat) :
    (cv.length > maxCv →
      (_prepare_inputs cv job warnings maxCv maxJob).1 = cv.take maxCv ∧
        (_prepare_inputs cv job warnings maxCv maxJob).1.length = maxCv) ∧
    (cv.length ≤ maxCv → (_prepare_inputs cv job warnings maxCv maxJob).1 = cv) ∧
    (job.length > maxJob →
      (_prepare_inputs cv job warnings maxCv maxJob).2.1 = job.take maxJob ∧
        (_prepare_inputs cv job warnings maxCv maxJob).2.1.length = maxJob) ∧
    (job.length ≤ maxJob → (_prepare_inputs cv job warnings maxCv maxJob).2.1 = job) ∧
    (cv.length > maxCv ∨ job.length > maxJob →
      (_prepare_inputs cv job warnings maxCv maxJob).2.2 =
        warnings ++ [truncationWarning]) ∧
    (cv.length ≤ maxCv ∧ job.length ≤ maxJob →
      (_prepare_inputs cv job warnings maxCv maxJob).2.2 = warnings) := by
  refine ⟨?_, ?_, ?_, ?_, ?_, ?_⟩
  · intro h
    constructor
    · simp [_prepare_inputs, _truncate, if_neg (by omega : ¬ cv.length ≤ maxCv)]
    · simp [_prepare_inputs, _truncate, if_neg (by omega : ¬ cv.length ≤ maxCv),
        List.length_take]
      omega
  · intro h
    simp [_prepare_inputs, _truncate, if_pos h]
  · intro h
    constructor
    · simp [_prepare_inputs, _truncate, if_neg (by omega : ¬ job.length ≤ maxJob)]
    · simp [_prepare_inputs, _truncate, if_neg (by omega : ¬ job.length ≤ maxJob),
        List.length_take]
      omega
  · intro h
    simp [_prepare_inputs, _truncate, if_pos h]
  · intro h
    rcases h with h | h
    · simp [_prepare_inputs, _truncate, if_neg (by omega : ¬ cv.length ≤ maxCv)]
    · simp [_prepare_inputs, _truncate, if_neg (by omega : ¬ job.length ≤ maxJob)]
  · intro h
    simp [_prepare_inputs, _truncate, if_pos h.1, if_pos h.2]

/-- Witness for C7: a 3-character CV against a 2-character maximum is clipped to
exactly its first 2 characters and yields exactly one shared warning, with the
job text (within its maximum) forwarded unchanged. -/
theorem prepare_inputs_spec_witness :
    (_prepare_inputs "abc".toList "x".toList [] 2 5).1 = "abc".toList.take 2 ∧
      (_prepare_inputs "abc".toList "x".toList [] 2 5).1.length = 2 ∧
      (_prepare_inputs "abc".toList "x".toList [] 2 5).2.1 = "x".toList ∧
      (_prepare_inputs "abc".toList "x".toList [] 2 5).2.2 = [] ++ [truncationWarning] := by
  have h := prepare_inputs_spec "abc".toList "x".toList [] 2 5
  exact ⟨(h.1 (by decide)).1, (h.1 (by decide)).2, h.2.2.2.1 (by decide),
    h.2.2.2.2.1 (Or.inl (by decide))⟩

theorem lookup_dictInsert (states : List (List Char × WindowState)) (key : List Char)
    (v : WindowState) : (dictInsert states key v).lookup key = some v := by
  induction states with
  | nil => simp [dictInsert, List.lookup]
  | cons kv t ih =>
      obtain ⟨k, w⟩ := kv
      by_cases h : key = k
      · simp [dictInsert, List.lookup, h]
      · simp only [dictInsert]
        rw [if_neg (by simpa using h)]
        simp only [List.lookup]
        rw [show (key == k) = false from by simpa using h]
        exact ih

theorem get_or_reset_eq (states : List (List Char × WindowState)) (key : List Char)
    (ws : Int) :
    _get_or_reset_state states key ws = ⟨ws, windowBase states key ws⟩ := by
  unfold _get_or_reset_state windowBase
  cases states.lookup key with
  | none => rfl
  | some st =>
      obtain ⟨w0, c0⟩ := st
      by_cases h : w0 = ws <;> simp [h]

/-- C6: `consume`, for a non-empty key and cost at least 1, works on the state
whose window start is `floor(now / window_seconds) * window_seconds` -- a fresh
zero count when no state is stored for the key or the stored window start
differs -- and then: if `count + cost <= limit` it stores the incremented count
and allows with `remaining = max(0, limit - count)` and no retry hint,
otherwise it leaves the (possibly reset) count in place and blocks with
`remaining = max(0, limit - count)` and
`retry_after_seconds = max(0, ceil(reset_at - now))` where
`reset_at = window_start + window_seconds`. -/
theorem consume_spec (limit window_seconds : Int)
    (states : List (List Char × WindowState)) (key : List Char) (cost : Int) (now : ℚ)
    (hkey : key ≠ []) (hcost : 1 ≤ cost) :
    ∃ res states2,
      consume limit window_seconds states key cost now = Except.ok (res, states2) ∧
      res.limit = limit ∧
      res.reset_at = ⌊now / (window_seconds : ℚ)⌋ * window_seconds + window_seconds ∧
      (windowBase states key (⌊now / (window_seconds : ℚ)⌋ * window_seconds) + cost ≤ limit →
        res.allowed = true ∧
        res.remaining = max 0 (limit -
          (windowBase states key (⌊now / (window_seconds : ℚ)⌋ * window_seconds) + cost)) ∧
        res.retry_after_seconds = none ∧
        states2.lookup key = some
          ⟨⌊now / (window_seconds : ℚ)⌋ * window_seconds,
           windowBase states key (⌊now / (window_seconds : ℚ)⌋ * window_seconds) + cost⟩) ∧
      (limit < windowBase states key (⌊now / (window_seconds : ℚ)⌋ * window_seconds) + cost →
        res.allowed = false ∧
        res.remaining = max 0 (limit -
          windowBase states key (⌊now / (window_seconds : ℚ)⌋ * window_seconds)) ∧
        res.retry_after_seconds = some (max 0
          ⌈((⌊now / (window_seconds : ℚ)⌋ * window_seconds + window_seconds : Int) : ℚ) - now⌉) ∧
        states2.lookup key = some
          ⟨⌊now / (window_seconds : ℚ)⌋ * window_seconds,
           windowBase states key (⌊now / (window_seconds : ℚ)⌋ * window_seconds)⟩) := by
  have hc1 : ¬ cost < 1 := by omega
  have hcon : consume limit window_seconds states key cost now =
      (if (_get_or_reset_state states key
            (⌊now / (window_seconds : ℚ)⌋ * window_seconds)).count + cost ≤ limit then
        Except.ok
          (_build_allowed_result limit
            (max 0 (limit -
              ((_get_or_reset_state states key
                (⌊now / (window_seconds : ℚ)⌋ * window_seconds)).count + cost)))
            (⌊now / (window_seconds : ℚ)⌋ * window_seconds + window_seconds),
          dictInsert states key
            ⟨(_get_or_reset_state states key
                (⌊now / (window_seconds : ℚ)⌋ * window_seconds)).window_start,
             (_get_or_reset_state states key
                (⌊now / (window_seconds : ℚ)⌋ * window_seconds)).count + cost⟩)
      else
        Except.ok
          (_build_blocked_result limit now
            (max 0 (limit -
              (_get_or_reset_state states key
                (⌊now / (window_seconds : ℚ)⌋ * window_seconds)).count))
            (⌊now / (window_seconds : ℚ)⌋ * window_seconds + window_seconds),
          dictInsert states key
            (_get_or_reset_state states key
              (⌊now / (window_seconds : ℚ)⌋ * window_seconds)))) := by
    unfold consume
    rw [if_neg hc1, if_neg hkey]
    rfl
  rw [get_or_reset_eq] at hcon
  by_cases hle :
      windowBase states key (⌊now / (window_seconds : ℚ)⌋ * window_seconds) + cost ≤ limit
  · rw [if_pos hle] at hcon
    refine ⟨_, _, hcon, rfl, rfl, ?_, ?_⟩
    · intro _
      exact ⟨rfl, rfl, rfl, lookup_dictInsert states key _⟩
    · intro hgt
      omega
  · rw [if_neg hle] at hcon
    refine ⟨_, _, hcon, rfl, rfl, ?_, ?_⟩
    · intro hlt
      omega
    · intro _
      exact ⟨rfl, rfl, rfl, lookup_dictInsert states key _⟩

/-- Witness for C6: with limit 2 and a 60-second window at time 30.5, a fresh
key is allowed with remaining 1 and count 1 stored; a key already holding
count 2 in the current window is blocked with remaining 0, a 30-second retry
hint, and its state left at count 2. -/
theorem consume_spec_witness :
    (∃ res states2,
      consume 2 60 [] "k".toList 1 (61 / 2 : ℚ) = Except.ok (res, states2) ∧
        res.allowed = true ∧ res.remaining = 1 ∧
        states2.lookup "k".toList = some ⟨0, 1⟩) ∧
    (∃ res states2,
      consume 2 60 [("k".toList, ⟨0, 2⟩)] "k".toList 1 (61 / 2 : ℚ) =
          Except.ok (res, states2) ∧
        res.allowed = false ∧ res.remaining = 0 ∧
        res.retry_after_seconds = some 30 ∧
        states2.lookup "k".toList = some ⟨0, 2⟩) := by
  have hfl : ⌊(61 / 2 : ℚ) / ((60 : ℤ) : ℚ)⌋ = 0 := by norm_num
  constructor
  · obtain ⟨res, states2, h1, hlim, hrs, hall, hblk⟩ :=
      consume_spec 2 60 [] "k".toList 1 (61 / 2 : ℚ) (by decide) (by decide)
    obtain ⟨ha, hr, hn, hl⟩ := hall (by rw [hfl]; decide)
    refine ⟨res, states2, h1, ha, ?_, ?_⟩
    · rw [hr, hfl]
      decide
    · rw [hl, hfl]
      decide
  · obtain ⟨res, states2, h1, hlim, hrs, hall, hblk⟩ :=
      consume_spec 2 60 [("k".toList, ⟨0, 2⟩)] "k".toList 1 (61 / 2 : ℚ)
        (by decide) (by decide)
    obtain ⟨ha, hr, hretry, hl⟩ := hblk (by rw [hfl]; decide)
    refine ⟨res, states2, h1, ha, ?_, ?_, ?_⟩
    · rw [hr, hfl]
      decide
    · rw [hretry, hfl]
      have hce : ⌈((0 * 60 + 60 : ℤ) : ℚ) - 61 / 2⌉ = (30 : ℤ) := by
        rw [Int.ceil_eq_iff]
        constructor
        · norm_num
        · norm_num
      rw [hce]
      decide
    · rw [hl, hfl]
      decide


theorem utf8Char_classA (c : Nat) (h : c < 0x80) : utf8Char c = [c] := by
  simp [utf8Char, h]

theorem utf8Char_classB (c : Nat) (h1 : 0x80 ≤ c) (h2 : c < 0x800) :
    utf8Char c = [0xC0 + c / 64, 0x80 + c % 64] := by
  unfold utf8Char
  rw [if_neg (by omega), if_pos h2]

theorem utf8Char_classC (c : Nat) (h1 : 0x800 ≤ c) (h2 : c < 0x10000)
    (hs : isSurrogate c = false) :
    utf8Char c = [0xE0 + c / 4096, 0x80 + c / 64 % 64, 0x80 + c % 64] := by
  unfold utf8Char
  rw [if_neg (by omega), if_neg (by omega), if_neg (by simp [hs]), if_pos h2]

theorem utf8Char_classD (c : Nat) (h1 : 0x10000 ≤ c) :
    utf8Char c =
      [0xF0 + c / 0x40000, 0x80 + c / 4096 % 64, 0x80 + c / 64 % 64, 0x80 + c % 64] := by
  unfold utf8Char
  rw [if_neg (by omega), if_neg (by omega),
    if_neg (show ¬ isSurrogate c = true by simp [isSurrogate]; omega),
    if_neg (by omega)]

theorem isScalar_spec (c : Nat) (h : isScalar c = true) :
    c < 0x110000 ∧ isSurrogate c = false := by
  simpa [isScalar] using h

theorem utf8Char_ne_nil (c : Nat) (h : isScalar c = true) : utf8Char c ≠ [] := by
  obtain ⟨hlt, hs⟩ := isScalar_spec c h
  rcases Nat.lt_or_ge c 0x80 with h1 | h1
  · simp [utf8Char_classA c h1]
  rcases Nat.lt_or_ge c 0x800 with h2 | h2
  · simp [utf8Char_classB c h1 h2]
  rcases Nat.lt_or_ge c 0x10000 with h3 | h3
  · simp [utf8Char_classC c h2 h3 hs]
  · simp [utf8Char_classD c h3]

theorem utf8Char_prefix (c1 c2 : Nat) (r1 r2 : List Nat)
    (h1 : isScalar c1 = true) (h2 : isScalar c2 = true)
    (h : utf8Char c1 ++ r1 = utf8Char c2 ++ r2) : c1 = c2 ∧ r1 = r2 := by
  obtain ⟨hl1, hs1⟩ := isScalar_spec c1 h1
  obtain ⟨hl2, hs2⟩ := isScalar_spec c2 h2
  have hr1 : ¬(0xD800 ≤ c1 ∧ c1 ≤ 0xDFFF) := by
    intro hc
    simp [isSurrogate, hc.1, hc.2] at hs1
  have hr2 : ¬(0xD800 ≤ c2 ∧ c2 ≤ 0xDFFF) := by
    intro hc
    simp [isSurrogate, hc.1, hc.2] at hs2
  rcases Nat.lt_or_ge c1 0x80 with hA1 | hge1
  case inl =>
    rw [utf8Char_classA c1 hA1] at h
    rcases Nat.lt_or_ge c2 0x80 with hA2 | hge2
    · rw [utf8Char_classA c2 hA2] at h
      simp only [List.cons_append, List.nil_append, List.cons.injEq] at h
      exact ⟨h.1, h.2⟩
    rcases Nat.lt_or_ge c2 0x800 with hB2 | hge2b
    · rw [utf8Char_classB c2 hge2 hB2] at h
      simp only [List.cons_append, List.nil_append, List.cons.injEq] at h
      exfalso; omega
    rcases Nat.lt_or_ge c2 0x10000 with hC2 | hD2
    · rw [utf8Char_classC c2 hge2b hC2 hs2] at h
      simp only [List.cons_append, List.nil_append, List.cons.injEq] at h
      exfalso; omega
    · rw [utf8Char_classD c2 hD2] at h
      simp only [List.cons_append, List.nil_append, List.cons.injEq] at h
      exfalso; omega
  rcases Nat.lt_or_ge c1 0x800 with hB1 | hge1b
  case inl =>
    rw [utf8Char_classB c1 hge1 hB1] at h
    rcases Nat.lt_or_ge c2 0x80 with hA2 | hge2
    · rw [utf8Char_classA c2 hA2] at h
      simp only [List.cons_append, List.nil_append, List.cons.injEq] at h
      exfalso; omega
    rcases Nat.lt_or_ge c2 0x800 with hB2 | hge2b
    · rw [utf8Char_classB c2 hge2 hB2] at h
      simp only [List.cons_append, List.nil_append, List.cons.injEq] at h
      exact ⟨by omega, h.2.2⟩
    rcases Nat.lt_or_ge c2 0x10000 with hC2 | hD2
    · rw [utf8Char_classC c2 hge2b hC2 hs2] at h
      simp only [List.cons_append, List.nil_append, List.cons.injEq] at h
      exfalso; omega
    · rw [utf8Char_classD c2 hD2] at h
      simp only [List.cons_append, List.nil_append, List.cons.injEq] at h
      exfalso; omega
  rcases Nat.lt_or_ge c1 0x10000 with hC1 | hD1
  case inl =>
    rw [utf8Char_classC c1 hge1b hC1 hs1] at h
    rcases Nat.lt_or_ge c2 0x80 with hA2 | hge2
    · rw [utf8Char_classA c2 hA2] at h
      simp only [List.cons_append, List.nil_append, List.cons.injEq] at h
      exfalso; omega
    rcases Nat.lt_or_ge c2 0x800 with hB2 | hge2b
    · rw [utf8Char_classB c2 hge2 hB2] at h
      simp only [List.cons_append, List.nil_append, List.cons.injEq] at h
      exfalso; omega
    rcases Nat.lt_or_ge c2 0x10000 with hC2 | hD2
    · rw [utf8Char_classC c2 hge2b hC2 hs2] at h
      simp only [List.cons_append, List.nil_append, List.cons.injEq] at h
      exact ⟨by omega, h.2.2.2⟩
    · rw [utf8Char_classD c2 hD2] at h
      simp only [List.cons_append, List.nil_append, List.cons.injEq] at h
      exfalso; omega
  case inr =>
    rw [utf8Char_classD c1 hD1] at h
    rcases Nat.lt_or_ge c2 0x80 with hA2 | hge2
    · rw [utf8Char_classA c2 hA2] at h
      simp only [List.cons_append, List.nil_append, List.cons.injEq] at h
      exfalso; omega
    rcases Nat.lt_or_ge c2 0x800 with hB2 | hge2b
    · rw [utf8Char_classB c2 hge2 hB2] at h
      simp only [List.cons_append, List.nil_append, List.cons.injEq] at h
      exfalso; omega
    rcases Nat.lt_or_ge c2 0x10000 with hC2 | hD2
    · rw [utf8Char_classC c2 hge2b hC2 hs2] at h
      simp only [List.cons_append, List.nil_append, List.cons.injEq] at h
      exfalso; omega
    · rw [utf8Char_classD c2 hD2] at h
      simp only [List.cons_append, List.nil_append, List.cons.injEq] at h
      exact ⟨by omega, h.2.2.2.2⟩

theorem utf8Ignore_append (a b : PyStr) :
    utf8Ignore (a ++ b) = utf8Ignore a ++ utf8Ignore b := by
  induction a with
  | nil => rfl
  | cons c t ih => simp [utf8Ignore, ih]

theorem utf8Ignore_inj (s1 : PyStr) : ∀ s2 : PyStr, ScalarStr s1 → ScalarStr s2 →
    utf8Ignore s1 = utf8Ignore s2 → s1 = s2 := by
  induction s1 with
  | nil =>
      intro s2 _ h2 h
      cases s2 with
      | nil => rfl
      | cons c t =>
          exfalso
          have hne := utf8Char_ne_nil c (h2 c (List.mem_cons_self c t))
          simp only [utf8Ignore] at h
          exact hne (List.append_eq_nil.mp h.symm).1
  | cons c1 t1 ih =>
      intro s2 hsc1 hsc2 h
      cases s2 with
      | nil =>
          exfalso
          have hne := utf8Char_ne_nil c1 (hsc1 c1 (List.mem_cons_self c1 t1))
          simp only [utf8Ignore] at h
          exact hne (List.append_eq_nil.mp h).1
      | cons c2 t2 =>
          have hp := utf8Char_prefix c1 c2 (utf8Ignore t1) (utf8Ignore t2)
            (hsc1 c1 (List.mem_cons_self _ _)) (hsc2 c2 (List.mem_cons_self _ _))
            (by simpa [utf8Ignore] using h)
          have ht := ih t2 (fun c hc => hsc1 c (List.mem_cons_of_mem _ hc))
            (fun c hc => hsc2 c (List.mem_cons_of_mem _ hc)) hp.2
          rw [hp.1, ht]

theorem hashInputsBytes_decomp (v cv job : PyStr) :
    hashInputsBytes v cv job =
      utf8Ignore v ++ (utf8Ignore (strCodes "::") ++ (utf8Ignore cv ++
        (utf8Ignore (strCodes "::") ++ utf8Ignore job))) := by
  unfold hashInputsBytes
  rw [utf8Ignore_append, utf8Ignore_append, utf8Ignore_append, utf8Ignore_append]
  simp [List.append_assoc]

/-- C8 counterexample: two different CV texts that differ only by a trailing
lone surrogate (U+D800) produce the same cache key, because `errors="ignore"`
silently drops the surrogate before hashing, so the digest input is
byte-for-byte identical. -/
theorem hash_inputs_cex :
    _hash_inputs [97] [98] = _hash_inputs [97, 0xD800] [98] ∧
      ([97] : PyStr) ≠ [97, 0xD800] := by
  constructor
  · have hbytes : hashInputsBytes PROMPT_VERSION [97] [98] =
        hashInputsBytes PROMPT_VERSION [97, 0xD800] [98] := by decide
    exact congrArg (fun bs => hexdigest (sha256 bs)) hbytes
  · decide

/-- C8 (amended): the cache key is a deterministic function of the triple
(prompt version, truncated CV text, truncated job text), computed as the
SHA-256 hex digest of the UTF-8 encoding (non-encodable code points ignored)
of the three components joined with `::`; and for components consisting of
UTF-8-encodable characters (Unicode scalar values), changing any one component
while holding the other two fixed changes the byte string that is hashed --
and hence the key, whenever SHA-256 does not collide on those byte strings.
A change confined to non-encodable code points can leave the key unchanged. -/
theorem hash_inputs_amended (ver ver2 cv cv2 job job2 : PyStr)
    (hver : ScalarStr ver) (hver2 : ScalarStr ver2) (hcv : ScalarStr cv)
    (hcv2 : ScalarStr cv2) (hjob : ScalarStr job) (hjob2 : ScalarStr job2) :
    (ver = ver2 → cv = cv2 → job = job2 →
      hexdigest (sha256 (hashInputsBytes ver cv job)) =
        hexdigest (sha256 (hashInputsBytes ver2 cv2 job2))) ∧
    (hashInputsBytes ver cv job = hashInputsBytes ver2 cv job → ver = ver2) ∧
    (hashInputsBytes ver cv job = hashInputsBytes ver cv2 job → cv = cv2) ∧
    (hashInputsBytes ver cv job = hashInputsBytes ver cv job2 → job = job2) := by
  refine ⟨?_, ?_, ?_, ?_⟩
  · intro e1 e2 e3
    rw [e1, e2, e3]
  · intro h
    rw [hashInputsBytes_decomp, hashInputsBytes_decomp] at h
    exact utf8Ignore_inj ver ver2 hver hver2 (List.append_cancel_right h)
  · intro h
    rw [hashInputsBytes_decomp, hashInputsBytes_decomp] at h
    have h2 := List.append_cancel_left (List.append_cancel_left h)
    exact utf8Ignore_inj cv cv2 hcv hcv2 (List.append_cancel_right h2)
  · intro h
    rw [hashInputsBytes_decomp, hashInputsBytes_decomp] at h
    have h2 := List.append_cancel_left (List.append_cancel_left
      (List.append_cancel_left (List.append_cancel_left h)))
    exact utf8Ignore_inj job job2 hjob hjob2 h2

/-- Witness for C8 (amended): the property applied to concrete one-character
components (code points of "v"/"w", "a"/"b", "c"/"d"). -/
theorem hash_inputs_amended_witness :
    (([118] : PyStr) = [119] → ([97] : PyStr) = [98] → ([99] : PyStr) = [100] →
      hexdigest (sha256 (hashInputsBytes [118] [97] [99])) =
        hexdigest (sha256 (hashInputsBytes [119] [98] [100]))) ∧
    (hashInputsBytes [118] [97] [99] = hashInputsBytes [119] [97] [99] →
      ([118] : PyStr) = [119]) ∧
    (hashInputsBytes [118] [97] [99] = hashInputsBytes [118] [98] [99] →
      ([97] : PyStr) = [98]) ∧
    (hashInputsBytes [118] [97] [99] = hashInputsBytes [118] [97] [100] →
      ([99] : PyStr) = [100]) :=
  hash_inputs_amended [118] [119] [97] [98] [99] [100]
    (by decide) (by decide) (by decide) (by decide) (by decide) (by decide)

theorem encodeStr_append (a b : List Char) :
    encodeStr (a ++ b) = encodeStr a ++ encodeStr b := by
  unfold encodeStr
  rw [List.map_append, utf8Ignore_append]

/-- C10: the standalone `build_cache_key` helper concatenates the file bytes,
the job text's UTF-8 bytes and the optional salt with no separator between the
fields, so distinct input pairs can collide: for all byte strings `b1`, `b2`
and every job text `j`, if `b2` is the UTF-8 encoding of a string `s`, then
`build_cache_key (b1 ++ b2) j` (no salt) equals `build_cache_key b1 (s ++ j)`;
in particular the key does not uniquely determine the (file bytes, job text)
pair. -/
theorem build_cache_key_collision :
    (∀ (b1 b2 : List Nat) (s j : List Char), b2 = encodeStr s →
      build_cache_key (b1 ++ b2) j none = build_cache_key b1 (s ++ j) none) ∧
    (∃ p1 p2 : List Nat × List Char, p1 ≠ p2 ∧
      build_cache_key p1.1 p1.2 none = build_cache_key p2.1 p2.2 none) := by
  constructor
  · intro b1 b2 s j hb
    subst hb
    have hbytes : b1 ++ encodeStr s ++ encodeStr j ++ ([] : List Nat) =
        b1 ++ encodeStr (s ++ j) ++ ([] : List Nat) := by
      rw [encodeStr_append]
      simp [List.append_assoc]
    exact congrArg (fun bs => hexdigest (sha256 bs)) hbytes
  · refine ⟨(encodeStr ['a'], ['b']), ([], ['a', 'b']), by decide, ?_⟩
    have hbytes : encodeStr ['a'] ++ encodeStr ['b'] ++ ([] : List Nat) =
        [] ++ encodeStr ['a', 'b'] ++ ([] : List Nat) := by decide
    exact congrArg (fun bs => hexdigest (sha256 bs)) hbytes

/-- Witness for C10: the collision equation at concrete inputs `b1 = [1]`,
`s = "a"`, `j = "b"`. -/
theorem build_cache_key_collision_witness :
    build_cache_key ([1] ++ encodeStr ['a']) ['b'] none =
      build_cache_key [1] (['a'] ++ ['b']) none :=
  build_cache_key_collision.1 [1] (encodeStr ['a']) ['a'] ['b'] rfl

theorem validate_inputs_none (cv job : List Char) (minCv : Nat)
    (hcv : ¬(cv = [] ∨ (stripBy isPyWs cv).length < minCv))
    (hjob : ¬(job = [] ∨ (stripBy isPyWs job).length < 50)) :
    _validate_inputs cv job minCv = none := by
  unfold _validate_inputs
  rw [if_neg hcv, if_neg hjob]

theorem model_validate_eq (d : DumpedAnalysis) (h0 : 0 ≤ d.fit_score)
    (h1 : d.fit_score ≤ 100) : model_validate d = some (asResponse d) := by
  unfold model_validate asResponse
  rw [if_pos ⟨h0, h1⟩]

/-- C2: starting from an empty cache, calling `analyze` twice with the
identical (already-valid-length) CV/job pair, with the second call within the
entry's TTL, makes exactly one LLM invocation in total (1 on the first call, 0
on the second); the second call's response is reconstructed from the cached
plain-data dump with `cached = true` and every other field identical to the
first response. -/
theorem analyze_cache_roundtrip (llm : List Char × List Char → LLMRaw)
    (cv job : List Char) (minCv maxCv maxJob : Nat) (ttl : ℚ) (m : Nat) (t1 t2 : ℚ)
    (hcv : ¬(cv = [] ∨ (stripBy isPyWs cv).length < minCv))
    (hjob : ¬(job = [] ∨ (stripBy isPyWs job).length < 50))
    (hfit0 : 0 ≤ (llm ((_prepare_inputs cv job [] maxCv maxJob).1,
      (_prepare_inputs cv job [] maxCv maxJob).2.1)).fit_score)
    (hfit1 : (llm ((_prepare_inputs cv job [] maxCv maxJob).1,
      (_prepare_inputs cv job [] maxCv maxJob).2.1)).fit_score ≤ 100)
    (hm : ¬ (1 > m)) (hexp : ¬ t2 > t1 + ttl) :
    ∃ r1 c1 c2,
      analyze llm (emptyCache ttl (some m)) cv job [] minCv maxCv maxJob t1 =
        Except.ok (r1, c1, 1) ∧
      r1.cached = false ∧
      analyze llm c1 cv job [] minCv maxCv maxJob t2 =
        Except.ok ({ r1 with cached := true }, c2, 0) := by
  have hva := validate_inputs_none cv job minCv hcv hjob
  have hraw := model_validate_eq
    (rawToDump (llm ((_prepare_inputs cv job [] maxCv maxJob).1,
      (_prepare_inputs cv job [] maxCv maxJob).2.1))
      (_prepare_inputs cv job [] maxCv maxJob).2.2)
    hfit0 hfit1
  have h1 : analyze llm (emptyCache ttl (some m)) cv job [] minCv maxCv maxJob t1 =
      Except.ok
        (asResponse (rawToDump (llm ((_prepare_inputs cv job [] maxCv maxJob).1,
            (_prepare_inputs cv job [] maxCv maxJob).2.1))
          (_prepare_inputs cv job [] maxCv maxJob).2.2),
         cacheSet { emptyCache ttl (some m) with misses := 1 }
           (_hash_inputs ((_prepare_inputs cv job [] maxCv maxJob).1.map Char.toNat)
             ((_prepare_inputs cv job [] maxCv maxJob).2.1.map Char.toNat))
           (AnalysisValue.dict (model_dump
             (asResponse (rawToDump (llm ((_prepare_inputs cv job [] maxCv maxJob).1,
                 (_prepare_inputs cv job [] maxCv maxJob).2.1))
               (_prepare_inputs cv job [] maxCv maxJob).2.2)))) t1,
         1) := by
    simp [analyze, hva, _get_from_cache, cacheGet, emptyCache, hraw]
  have hmv2 : model_validate (setCached (model_dump
      (asResponse (rawToDump (llm ((_prepare_inputs cv job [] maxCv maxJob).1,
          (_prepare_inputs cv job [] maxCv maxJob).2.1))
        (_prepare_inputs cv job [] maxCv maxJob).2.2))) true) =
      some { asResponse (rawToDump (llm ((_prepare_inputs cv job [] maxCv maxJob).1,
          (_prepare_inputs cv job [] maxCv maxJob).2.1))
        (_prepare_inputs cv job [] maxCv maxJob).2.2) with cached := true } := by
    have hx := model_validate_eq (setCached (model_dump
      (asResponse (rawToDump (llm ((_prepare_inputs cv job [] maxCv maxJob).1,
          (_prepare_inputs cv job [] maxCv maxJob).2.1))
        (_prepare_inputs cv job [] maxCv maxJob).2.2))) true) hfit0 hfit1
    rw [hx]
    rfl
  refine ⟨_, _,
    ⟨ttl, some m,
      [(_hash_inputs ((_prepare_inputs cv job [] maxCv maxJob).1.map Char.toNat)
          ((_prepare_inputs cv job [] maxCv maxJob).2.1.map Char.toNat),
        ⟨AnalysisValue.dict (model_dump (asResponse (rawToDump
            (llm ((_prepare_inputs cv job [] maxCv maxJob).1,
              (_prepare_inputs cv job [] maxCv maxJob).2.1))
            (_prepare_inputs cv job [] maxCv maxJob).2.2))),
          t1 + ttl⟩)],
      1, 1, 0⟩,
    h1, rfl, ?_⟩
  simp [analyze, hva, _get_from_cache, cacheGet, cacheSet, evictExpired,
    evictOverCapacity, removeKey, emptyCache, hm, hexp, hmv2]


set_option maxRecDepth 8000 in
/-- Witness for C2: a concrete pair (5-character CV under `min_cv_chars = 1`,
50-character job text) against a constant LLM oracle, with the second call 5
seconds into a 10-second TTL. -/
theorem analyze_cache_roundtrip_witness :
    ∃ r1 c1 c2,
      analyze
          (fun _ => ⟨"s".toList, 50, "r".toList, [], [], [], [], [], [], [], [],
            Confidence.medium⟩)
          (emptyCache 10 (some 4)) (List.replicate 5 'a') (List.replicate 50 'j')
          [] 1 100 100 0 = Except.ok (r1, c1, 1) ∧
      r1.cached = false ∧
      analyze
          (fun _ => ⟨"s".toList, 50, "r".toList, [], [], [], [], [], [], [], [],
            Confidence.medium⟩)
          c1 (List.replicate 5 'a') (List.replicate 50 'j')
          [] 1 100 100 5 = Except.ok ({ r1 with cached := true }, c2, 0) :=
  analyze_cache_roundtrip
    (fun _ => ⟨"s".toList, 50, "r".toList, [], [], [], [], [], [], [], [],
      Confidence.medium⟩)
    (List.replicate 5 'a') (List.replicate 50 'j') 1 100 100 10 4 0 5
    (by decide) (by decide) (by decide) (by decide) (by decide) (by norm_num)

/-- C1 (spec-modelled): for texts passing the length checks, with semantic
validation enabled, `analyze` asks the judge LLM about each text on its first
2000 characters and treats a text as valid only if the returned flag is true
and confidence is at least 0.7; otherwise it fails with a validation error
carrying code `invalid_cv_content` (CV) or `invalid_job_content` (job) before
the main analysis LLM is ever consulted (the rejection is the same for every
analysis LLM); when both gates pass, the pipeline proceeds exactly as the
ungated `analyze`. -/
theorem analyze_gated_spec (judgeCv judgeJob : List Char → JudgeOutcome)
    (llm : List Char × List Char → LLMRaw) (cache : SimpleTTLCache)
    (cv job : List Char) (warnings : List (List Char))
    (minCv maxCv maxJob : Nat) (now : ℚ)
    (valid : Bool) (conf : ℚ) (reason : List Char) (det : List (List Char))
    (hcv : ¬(cv = [] ∨ (stripBy isPyWs cv).length < minCv))
    (hjob : ¬(job = [] ∨ (stripBy isPyWs job).length < 50)) :
    (judgeCv (cv.take 2000) = .reply valid conf reason det →
      ¬(valid = true ∧ 7 / 10 ≤ conf) →
      ∀ llm2 : List Char × List Char → LLMRaw,
        analyze_gated true judgeCv judgeJob llm2 cache cv job warnings minCv maxCv
            maxJob now =
          Except.error (AppError.validation "invalid_cv_content".toList
            "The text doesn't appear to be a valid CV.".toList)) ∧
    (_validate_cv_semantic_content true judgeCv cv = none →
      judgeJob (job.take 2000) = .reply valid conf reason det →
      ¬(valid = true ∧ 7 / 10 ≤ conf) →
      ∀ llm2 : List Char × List Char → LLMRaw,
        analyze_gated true judgeCv judgeJob llm2 cache cv job warnings minCv maxCv
            maxJob now =
          Except.error (AppError.validation "invalid_job_content".toList
            "The text doesn't appear to be a valid job description.".toList)) ∧
    (judgeCv (cv.take 2000) = .reply valid conf reason det →
      (_validate_cv_semantic_content true judgeCv cv = none ↔
        (valid = true ∧ 7 / 10 ≤ conf))) ∧
    (_validate_cv_semantic_content true judgeCv cv = none →
      _validate_job_semantic_content true judgeJob job = none →
      analyze_gated true judgeCv judgeJob llm cache cv job warnings minCv maxCv
          maxJob now =
        analyze llm cache cv job warnings minCv maxCv maxJob now) ∧
    (∀ cv2 : List Char, cv2.take 2000 = cv.take 2000 →
      _validate_cv_semantic_content true judgeCv cv2 =
        _validate_cv_semantic_content true judgeCv cv) := by
  have hva := validate_inputs_none cv job minCv hcv hjob
  refine ⟨?_, ?_, ?_, ?_, ?_⟩
  · intro hj hnv llm2
    have hgate : _validate_cv_semantic_content true judgeCv cv =
        some (.validation "invalid_cv_content".toList
          "The text doesn't appear to be a valid CV.".toList) := by
      unfold _validate_cv_semantic_content
      rw [if_neg (by simp), hj]
      simp [hnv]
    simp [analyze_gated, hva, hgate]
  · intro hcvnone hj hnv llm2
    have hgate : _validate_job_semantic_content true judgeJob job =
        some (.validation "invalid_job_content".toList
          "The text doesn't appear to be a valid job description.".toList) := by
      unfold _validate_job_semantic_content
      rw [if_neg (by simp), hj]
      simp [hnv]
    simp [analyze_gated, hva, hcvnone, hgate]
  · intro hj
    unfold _validate_cv_semantic_content
    rw [if_neg (by simp), hj]
    by_cases hc : valid = true ∧ 7 / 10 ≤ conf
    · simp [hc]
    · simp [hc]
  · intro hcvnone hjobnone
    simp [analyze_gated, hva, hcvnone, hjobnone]
  · intro cv2 h2000
    unfold _validate_cv_semantic_content
    rw [h2000]

set_option maxRecDepth 8000 in
/-- Witness for C1: concrete judges (the CV judge replies invalid with
confidence 0.9; the job judge replies valid with confidence 0.65, below the
0.7 threshold) against concrete valid-length texts. -/
theorem analyze_gated_spec_witness :
    ((fun _ => JudgeOutcome.reply false (9 / 10) [] []) ((List.replicate 5 'a').take 2000) =
        JudgeOutcome.reply false (9 / 10) [] [] →
      ¬(false = true ∧ (7 / 10 : ℚ) ≤ 9 / 10) →
      ∀ llm2 : List Char × List Char → LLMRaw,
        analyze_gated true (fun _ => JudgeOutcome.reply false (9 / 10) [] [])
            (fun _ => JudgeOutcome.reply true (13 / 20) [] []) llm2
            (emptyCache 10 (some 4)) (List.replicate 5 'a') (List.replicate 50 'j')
            [] 1 100 100 0 =
          Except.error (AppError.validation "invalid_cv_content".toList
            "The text doesn't appear to be a valid CV.".toList)) ∧
    (_validate_cv_semantic_content true (fun _ => JudgeOutcome.reply false (9 / 10) [] [])
        (List.replicate 5 'a') = none →
      (fun _ => JudgeOutcome.reply true (13 / 20) [] [])
          ((List.replicate 50 'j').take 2000) =
        JudgeOutcome.reply false (9 / 10) [] [] →
      ¬(false = true ∧ (7 / 10 : ℚ) ≤ 9 / 10) →
      ∀ llm2 : List Char × List Char → LLMRaw,
        analyze_gated true (fun _ => JudgeOutcome.reply false (9 / 10) [] [])
            (fun _ => JudgeOutcome.reply true (13 / 20) [] []) llm2
            (emptyCache 10 (some 4)) (List.replicate 5 'a') (List.replicate 50 'j')
            [] 1 100 100 0 =
          Except.error (AppError.validation "invalid_job_content".toList
            "The text doesn't appear to be a valid job description.".toList)) ∧
    ((fun _ => JudgeOutcome.reply false (9 / 10) [] []) ((List.replicate 5 'a').take 2000) =
        JudgeOutcome.reply false (9 / 10) [] [] →
      (_validate_cv_semantic_content true (fun _ => JudgeOutcome.reply false (9 / 10) [] [])
          (List.replicate 5 'a') = none ↔
        (false = true ∧ (7 / 10 : ℚ) ≤ 9 / 10))) ∧
    (_validate_cv_semantic_content true (fun _ => JudgeOutcome.reply false (9 / 10) [] [])
        (List.replicate 5 'a') = none →
      _validate_job_semantic_content true (fun _ => JudgeOutcome.reply true (13 / 20) [] [])
          (List.replicate 50 'j') = none →
      analyze_gated true (fun _ => JudgeOutcome.reply false (9 / 10) [] [])
          (fun _ => JudgeOutcome.reply true (13 / 20) [] [])
          (fun _ => ⟨"s".toList, 50, "r".toList, [], [], [], [], [], [], [], [],
            Confidence.medium⟩)
          (emptyCache 10 (some 4)) (List.replicate 5 'a') (List.replicate 50 'j')
          [] 1 100 100 0 =
        analyze
          (fun _ => ⟨"s".toList, 50, "r".toList, [], [], [], [], [], [], [], [],
            Confidence.medium⟩)
          (emptyCache 10 (some 4)) (List.replicate 5 'a') (List.replicate 50 'j')
          [] 1 100 100 0) ∧
    (∀ cv2 : List Char, cv2.take 2000 = (List.replicate 5 'a').take 2000 →
      _validate_cv_semantic_content true (fun _ => JudgeOutcome.reply false (9 / 10) [] [])
          cv2 =
        _validate_cv_semantic_content true (fun _ => JudgeOutcome.reply false (9 / 10) [] [])
          (List.replicate 5 'a')) :=
  analyze_gated_spec (fun _ => JudgeOutcome.reply false (9 / 10) [] [])
    (fun _ => JudgeOutcome.reply true (13 / 20) [] [])
    (fun _ => ⟨"s".toList, 50, "r".toList, [], [], [], [], [], [], [], [],
      Confidence.medium⟩)
    (emptyCache 10 (some 4)) (List.replicate 5 'a') (List.replicate 50 'j') []
    1 100 100 0 false (9 / 10) [] [] (by decide) (by decide)

end CvAnalyzer
